import Mathlib

/-!
# Sunrise and sunset times (`riseandset.go`)

A shallow embedding of the Go package `riseandset` and a verification of the
properties its specification states.

## Number models

The program computes in `float64`.  The file holds two embeddings of it.

### Exact arithmetic

The first embedding idealises the arithmetic:

* a finite `float64` is a real number, and arithmetic on finite numbers is the
  exact arithmetic of the reals (no rounding, no overflow).  The decimal
  constants of the source are read as the rationals they denote and `math.Pi`
  as `Real.pi`;
* a `float64` that may fail to be a finite number has type `F = Option ℝ`,
  where `none` is not-a-number.  In this program such a value can only arise
  from `math.Sqrt` of a negative number, from `math.Asin` or `math.Acos` outside
  `[-1, 1]`, or from a division by zero; the only division by a non-constant
  feeds `math.Acos` directly, where an infinity and a not-a-number both give
  not-a-number.  Every later operation propagates `none`;
* the arguments of `Times` are finite numbers, as the specification requires,
  so the stages before `hourAngle` compute finite numbers.

### Binary64 arithmetic

The second embedding, in the namespace `Binary64`, keeps the rounding: every
operation of the source is the exact operation followed by rounding to the
nearest `float64`, ties to even.  It decides which properties survive the
rounding: a property that fails on `float64` numbers is refuted there, at an
input the program can receive, and is then stated either for the `float64`
arithmetic in a form that holds, or for the exact arithmetic, which the
statement says.
-/

namespace Riseandset

/-- A `float64` that may be not-a-number (`none`). -/
abbrev F := Option ℝ

/-! ## Library functions of package `math` -/

/-- Truncation toward zero of a real number. -/
noncomputable def math.truncate (q : ℝ) : ℤ :=
  if 0 ≤ q then ⌊q⌋ else ⌈q⌉

/-- Go `math.Mod(x, y)` for finite `x` and finite nonzero `y`: the remainder of
`x / y` whose sign agrees with that of `x` and whose magnitude is less than
that of `y`. -/
noncomputable def math.Mod (x y : ℝ) : ℝ :=
  x - y * (math.truncate (x / y) : ℝ)

/-- Go `math.Sqrt(x)`: not-a-number when `x < 0`. -/
noncomputable def math.Sqrt (x : ℝ) : F :=
  if 0 ≤ x then some (Real.sqrt x) else none

/-- Go `math.Asin(x)`: not-a-number when `x < -1` or `x > 1`. -/
noncomputable def math.Asin (x : ℝ) : F :=
  if -1 ≤ x ∧ x ≤ 1 then some (Real.arcsin x) else none

/-- Go `math.Acos(x)`: not-a-number when `x < -1` or `x > 1`. -/
noncomputable def math.Acos (x : ℝ) : F :=
  if -1 ≤ x ∧ x ≤ 1 then some (Real.arccos x) else none

/-- Division `x / y` of two finite numbers: a finite number unless `y = 0`. -/
noncomputable def quotient (x y : ℝ) : F :=
  if y = 0 then none else some (x / y)

/-! ## The package -/

/-- Constant `DegToRad = (2.0 * math.Pi) / 360.0`. -/
noncomputable def DegToRad : ℝ := (2.0 * Real.pi) / 360.0

/-- Constant `Jan1200012pm = 2451545.0`. -/
def Jan1200012pm : ℝ := 2451545.0

/-- Function `meanSolarNoon(julDay, longitude)`. -/
noncomputable def meanSolarNoon (julDay longitude : ℝ) : ℝ :=
  (longitude / 360.0) + julDay

/-- Function `meanSolarAnomaly(meanSolarNoon)`. -/
noncomputable def meanSolarAnomaly (meanSolarNoon : ℝ) : ℝ :=
  math.Mod
    (357.5291 + 0.98560028 * meanSolarNoon)
    360.0

/-- Function `center(meanSolAnomaly)`. -/
noncomputable def center (meanSolAnomaly : ℝ) : ℝ :=
  let meanSolAnomalyRadians := meanSolAnomaly * DegToRad
  1.9148 * Real.sin meanSolAnomalyRadians +
    0.02 * Real.sin (2.0 * meanSolAnomalyRadians) +
    0.0003 * Real.sin (3.0 * meanSolAnomalyRadians)

/-- Function `eclipticLongitude(meanSolAnomaly)`. -/
noncomputable def eclipticLongitude (meanSolAnomaly : ℝ) : ℝ :=
  math.Mod
    (meanSolAnomaly +
      center meanSolAnomaly +
      180.0 +
      102.9372)
    360.0

/-- The argument that `hourAngle` passes to `math.Acos`: the body of `hourAngle`
up to that call. -/
noncomputable def hourAngleArg (altitude latitude eclipticLongitude : ℝ) : F := do
  let root ← math.Sqrt altitude
  let altitudeModifier := -2.076 * (root / 60.0)
  let latitudeRadians := latitude * DegToRad
  let a ← math.Asin
    (Real.sin (eclipticLongitude * DegToRad) *
      Real.sin (23.43713 * DegToRad))
  let solDeclination := a / DegToRad
  let solDeclinationRadians := solDeclination * DegToRad
  quotient
    (Real.sin ((-0.83 + altitudeModifier) * DegToRad) -
      Real.sin latitudeRadians *
        Real.sin solDeclinationRadians)
    (Real.cos latitudeRadians *
      Real.cos solDeclinationRadians)

/-- Function `hourAngle(altitude, latitude, eclipticLongitude)`. -/
noncomputable def hourAngle (altitude latitude eclipticLongitude : ℝ) : F := do
  let q ← hourAngleArg altitude latitude eclipticLongitude
  let c ← math.Acos q
  pure (c / DegToRad)

/-- Function `julRiseAndSet(meanSolNoon, meanSolAnomaly, eclipticLongitude,
hourAngle)`; the hour angle is the one argument that `Times` may pass as
not-a-number. -/
noncomputable def julRiseAndSet
    (meanSolNoon meanSolAnomaly eclipticLongitude : ℝ) (hourAngle : F) : F × F :=
  let solTransit :=
    meanSolNoon +
      (0.0053 * Real.sin (meanSolAnomaly * DegToRad)) -
      (0.0069 * Real.sin (2.0 * eclipticLongitude * DegToRad))
  let hourAngUnit : F := do
    let h ← hourAngle
    pure (h / 360.0)
  let riseJulian : F := do
    let u ← hourAngUnit
    pure (Jan1200012pm + (solTransit - u))
  let setJulian : F := do
    let u ← hourAngUnit
    pure (Jan1200012pm + (solTransit + u))
  (riseJulian, setJulian)

/-- Function `Times(date, longitude, latitude, altitude)`. -/
noncomputable def Times (date : ℤ) (longitude latitude altitude : ℝ) : F × F :=
  let jd := ((date : ℝ) - Jan1200012pm) + 0.0008
  let meanSolNoon := meanSolarNoon jd longitude
  let meanSolAnomaly := meanSolarAnomaly meanSolNoon
  let eclipticLong := eclipticLongitude meanSolAnomaly
  let hourAng := hourAngle altitude latitude eclipticLong
  julRiseAndSet
    meanSolNoon
    meanSolAnomaly
    eclipticLong
    hourAng

/-! ## Derived quantities used to state the properties -/

/-- The ecliptic longitude that `Times(date, longitude, _, _)` passes to
`hourAngle`. -/
noncomputable def timesEclipticLongitude (date : ℤ) (longitude : ℝ) : ℝ :=
  eclipticLongitude
    (meanSolarAnomaly (meanSolarNoon (((date : ℝ) - Jan1200012pm) + 0.0008) longitude))

/-- The argument of `math.Acos` in the hour-angle stage of
`Times(date, longitude, latitude, altitude)`. -/
noncomputable def timesAcosArg (date : ℤ) (longitude latitude altitude : ℝ) : F :=
  hourAngleArg altitude latitude (timesEclipticLongitude date longitude)

/-! ## The algorithm as the specification words it -/

/-- The angle `x°` in radians: `x * (2 * pi / 360)`. -/
noncomputable def deg (x : ℝ) : ℝ := x * (2 * Real.pi / 360)

/-- The result of `Times` as the specification's algorithm gives it: the mean
solar noon `n`, the mean solar anomaly `M`, the equation of center `C`, the
ecliptic longitude `L`, the solar transit `T`, the declination `d` and the hour
angle `H` in degrees, and the pair `(2451545 + (T - H/360), 2451545 + (T + H/360))`. -/
noncomputable def specTimes (date : ℤ) (longitude latitude altitude : ℝ) : F × F :=
  let n := longitude / 360 + (((date : ℝ) - 2451545) + 0.0008)
  let M := math.Mod (357.5291 + 0.98560028 * n) 360
  let C := 1.9148 * Real.sin (deg M) + 0.02 * Real.sin (deg (2 * M)) +
    0.0003 * Real.sin (deg (3 * M))
  let L := math.Mod (M + C + 180 + 102.9372) 360
  let T := n + 0.0053 * Real.sin (deg M) - 0.0069 * Real.sin (deg (2 * L))
  let H : F := do
    let a ← math.Asin (Real.sin (deg L) * Real.sin (deg 23.43713))
    let d := a / (2 * Real.pi / 360)
    let root ← math.Sqrt altitude
    let q ← quotient
      (Real.sin (deg (-0.83 - 2.076 * root / 60)) - Real.sin (deg latitude) * Real.sin (deg d))
      (Real.cos (deg latitude) * Real.cos (deg d))
    let c ← math.Acos q
    pure (c / (2 * Real.pi / 360))
  (H.map fun h => 2451545 + (T - h / 360), H.map fun h => 2451545 + (T + h / 360))

/-- The sine of the solar declination that `hourAngle` computes from the
ecliptic longitude: the argument of its `math.Asin`. -/
noncomputable def sinDeclination (eclipticLongitude : ℝ) : ℝ :=
  Real.sin (eclipticLongitude * DegToRad) * Real.sin (23.43713 * DegToRad)

namespace Binary64

/-- Rounding of a real number to the nearest integer, ties to even. -/
noncomputable def roundEven (y : ℝ) : ℤ :=
  if Int.fract y < 1 / 2 then ⌊y⌋
  else if 1 / 2 < Int.fract y then ⌊y⌋ + 1
  else if Even ⌊y⌋ then ⌊y⌋ else ⌊y⌋ + 1

/-- The exponent of the unit in the last place of `x`: 52 below the exponent of
the binade of `x`, and `-1074` in the subnormal range. -/
noncomputable def ulpExp (x : ℝ) : ℤ :=
  max (Int.log 2 |x|) (-1022) - 52

/-- Conversion `float64(x)`: the `float64` nearest to `x`, ties to even. -/
noncomputable def float64 (x : ℝ) : ℝ :=
  (roundEven (x / (2 : ℝ) ^ ulpExp x) : ℝ) * (2 : ℝ) ^ ulpExp x

/-- Go constant `math.Pi`. -/
noncomputable def math.Pi : ℝ :=
  3.14159265358979323846264338327950288419716939937510582097494459

/-- Go `math.Sin(x)`. -/
noncomputable def math.Sin (x : ℝ) : ℝ := float64 (Real.sin x)

/-- Go `math.Cos(x)`. -/
noncomputable def math.Cos (x : ℝ) : ℝ := float64 (Real.cos x)

/-- Go `math.Sqrt(x)`: not-a-number when `x < 0`. -/
noncomputable def math.Sqrt (x : ℝ) : F :=
  if 0 ≤ x then some (float64 (Real.sqrt x)) else none

/-- Go `math.Asin(x)`: not-a-number when `x < -1` or `x > 1`. -/
noncomputable def math.Asin (x : ℝ) : F :=
  if -1 ≤ x ∧ x ≤ 1 then some (float64 (Real.arcsin x)) else none

/-- Go `math.Acos(x)`: not-a-number when `x < -1` or `x > 1`. -/
noncomputable def math.Acos (x : ℝ) : F :=
  if -1 ≤ x ∧ x ≤ 1 then some (float64 (Real.arccos x)) else none

/-- Division `x / y` of two finite numbers: a finite number unless `y = 0`. -/
noncomputable def quotient (x y : ℝ) : F :=
  if y = 0 then none else some (float64 (x / y))

/-- Constant `DegToRad = (2.0 * math.Pi) / 360.0`, as a `float64`. -/
noncomputable def DegToRad : ℝ := float64 ((2.0 * math.Pi) / 360.0)

/-- Constant `Jan1200012pm = 2451545.0`. -/
def Jan1200012pm : ℝ := 2451545.0

/-- Function `meanSolarNoon(julDay, longitude)`. -/
noncomputable def meanSolarNoon (julDay longitude : ℝ) : ℝ :=
  float64 (float64 (longitude / 360.0) + julDay)

/-- Function `meanSolarAnomaly(meanSolarNoon)`. -/
noncomputable def meanSolarAnomaly (meanSolarNoon : ℝ) : ℝ :=
  Riseandset.math.Mod
    (float64 (float64 357.5291 + float64 (float64 0.98560028 * meanSolarNoon)))
    360.0

/-- Function `center(meanSolAnomaly)`. -/
noncomputable def center (meanSolAnomaly : ℝ) : ℝ :=
  let meanSolAnomalyRadians := float64 (meanSolAnomaly * DegToRad)
  float64
    (float64
      (float64 (float64 1.9148 * math.Sin meanSolAnomalyRadians) +
        float64 (float64 0.02 * math.Sin (float64 (2.0 * meanSolAnomalyRadians)))) +
      float64 (float64 0.0003 * math.Sin (float64 (3.0 * meanSolAnomalyRadians))))

/-- Function `eclipticLongitude(meanSolAnomaly)`. -/
noncomputable def eclipticLongitude (meanSolAnomaly : ℝ) : ℝ :=
  Riseandset.math.Mod
    (float64
      (float64
        (float64 (meanSolAnomaly + center meanSolAnomaly) +
          180.0) +
        float64 102.9372))
    360.0

/-- The argument that `hourAngle` passes to `math.Acos`: the body of `hourAngle`
up to that call. -/
noncomputable def hourAngleArg (altitude latitude eclipticLongitude : ℝ) : F := do
  let root ← math.Sqrt altitude
  let altitudeModifier := float64 (float64 (-2.076) * float64 (root / 60.0))
  let latitudeRadians := float64 (latitude * DegToRad)
  let a ← math.Asin
    (float64
      (math.Sin (float64 (eclipticLongitude * DegToRad)) *
        math.Sin (float64 (23.43713 * ((2.0 * math.Pi) / 360.0)))))
  let solDeclination := float64 (a / DegToRad)
  let solDeclinationRadians := float64 (solDeclination * DegToRad)
  quotient
    (float64
      (math.Sin (float64 (float64 (float64 (-0.83) + altitudeModifier) * DegToRad)) -
        float64
          (math.Sin latitudeRadians *
            math.Sin solDeclinationRadians)))
    (float64
      (math.Cos latitudeRadians *
        math.Cos solDeclinationRadians))

/-- Function `hourAngle(altitude, latitude, eclipticLongitude)`. -/
noncomputable def hourAngle (altitude latitude eclipticLongitude : ℝ) : F := do
  let q ← hourAngleArg altitude latitude eclipticLongitude
  let c ← math.Acos q
  pure (float64 (c / DegToRad))

/-- Function `julRiseAndSet(meanSolNoon, meanSolAnomaly, eclipticLongitude,
hourAngle)`. -/
noncomputable def julRiseAndSet
    (meanSolNoon meanSolAnomaly eclipticLongitude : ℝ) (hourAngle : F) : F × F :=
  let solTransit :=
    float64
      (float64
        (meanSolNoon +
          float64 (float64 0.0053 * math.Sin (float64 (meanSolAnomaly * DegToRad)))) -
        float64
          (float64 0.0069 *
            math.Sin (float64 (float64 (2.0 * eclipticLongitude) * DegToRad))))
  let hourAngUnit : F := do
    let h ← hourAngle
    pure (float64 (h / 360.0))
  let riseJulian : F := do
    let u ← hourAngUnit
    pure (float64 (Jan1200012pm + float64 (solTransit - u)))
  let setJulian : F := do
    let u ← hourAngUnit
    pure (float64 (Jan1200012pm + float64 (solTransit + u)))
  (riseJulian, setJulian)

/-- Function `Times(date, longitude, latitude, altitude)`. -/
noncomputable def Times (date : ℤ) (longitude latitude altitude : ℝ) : F × F :=
  let jd := float64 (float64 (float64 (date : ℝ) - Jan1200012pm) + float64 0.0008)
  let meanSolNoon := meanSolarNoon jd longitude
  let meanSolAnomaly := meanSolarAnomaly meanSolNoon
  let eclipticLong := eclipticLongitude meanSolAnomaly
  let hourAng := hourAngle altitude latitude eclipticLong
  julRiseAndSet
    meanSolNoon
    meanSolAnomaly
    eclipticLong
    hourAng

/-- The argument of `math.Acos` in the hour-angle stage of
`Times(date, longitude, latitude, altitude)`. -/
noncomputable def timesAcosArg (date : ℤ) (longitude latitude altitude : ℝ) : F :=
  hourAngleArg altitude latitude
    (eclipticLongitude
      (meanSolarAnomaly
        (meanSolarNoon
          (float64 (float64 (float64 (date : ℝ) - Jan1200012pm) + float64 0.0008))
          longitude)))

/-- The solar transit `solTransit` that `julRiseAndSet` computes. -/
noncomputable def solTransit (meanSolNoon meanSolAnomaly eclipticLongitude : ℝ) : ℝ :=
  float64
    (float64
      (meanSolNoon +
        float64 (float64 0.0053 * math.Sin (float64 (meanSolAnomaly * DegToRad)))) -
      float64
        (float64 0.0069 *
          math.Sin (float64 (float64 (2.0 * eclipticLongitude) * DegToRad))))

/-- The ecliptic longitude that `Times(date, longitude, _, _)` passes to
`hourAngle` and to `julRiseAndSet`. -/
noncomputable def timesEclipticLongitude (date : ℤ) (longitude : ℝ) : ℝ :=
  eclipticLongitude
    (meanSolarAnomaly
      (meanSolarNoon
        (float64 (float64 (float64 (date : ℝ) - Jan1200012pm) + float64 0.0008))
        longitude))

end Binary64

/-! ## Basic facts about the embedding -/

theorem DegToRad_eq : DegToRad = Real.pi / 180 := by
  unfold DegToRad; ring

theorem DegToRad_pos : 0 < DegToRad := by
  rw [DegToRad_eq]; positivity

theorem Asin_sin_mul_sin (a b : ℝ) :
    math.Asin (Real.sin a * Real.sin b) = some (Real.arcsin (Real.sin a * Real.sin b)) := by
  have h : |Real.sin a * Real.sin b| ≤ 1 := by
    rw [abs_mul]
    have ha := Real.abs_sin_le_one a
    have hb := Real.abs_sin_le_one b
    nlinarith [abs_nonneg (Real.sin a), abs_nonneg (Real.sin b)]
  have h2 := abs_le.mp h
  simp [math.Asin, h2.1, h2.2]

theorem julRiseAndSet_none (n m l : ℝ) :
    julRiseAndSet n m l none = (none, none) := by
  simp [julRiseAndSet]

theorem julRiseAndSet_some (n m l h : ℝ) :
    julRiseAndSet n m l (some h) =
      (some (2451545 + (n + 0.0053 * Real.sin (m * DegToRad) -
          0.0069 * Real.sin (2 * l * DegToRad) - h / 360)),
       some (2451545 + (n + 0.0053 * Real.sin (m * DegToRad) -
          0.0069 * Real.sin (2 * l * DegToRad) + h / 360))) := by
  simp [julRiseAndSet, Jan1200012pm]
  norm_num

/-- The body of `hourAngle` in the specification's wording. -/
theorem hourAngle_spec (altitude latitude l : ℝ) :
    hourAngle altitude latitude l = (do
      let a ← math.Asin (Real.sin (deg l) * Real.sin (deg 23.43713))
      let d := a / (2 * Real.pi / 360)
      let root ← math.Sqrt altitude
      let q ← quotient
        (Real.sin (deg (-0.83 - 2.076 * root / 60)) - Real.sin (deg latitude) * Real.sin (deg d))
        (Real.cos (deg latitude) * Real.cos (deg d))
      let c ← math.Acos q
      pure (c / (2 * Real.pi / 360))) := by
  have hd : DegToRad = 2 * Real.pi / 360 := by unfold DegToRad; norm_num
  have h1 : math.Asin (Real.sin (deg l) * Real.sin (deg 23.43713)) = _ := Asin_sin_mul_sin _ _
  have h2 : math.Asin (Real.sin (l * (2 * Real.pi / 360)) *
      Real.sin (23.43713 * (2 * Real.pi / 360))) = _ := Asin_sin_mul_sin _ _
  rw [h1]
  unfold hourAngle hourAngleArg
  rw [hd, h2]
  by_cases ha : 0 ≤ altitude
  · simp only [math.Sqrt, ha, if_true, Option.bind_eq_bind, Option.some_bind, deg, Option.pure_def]
    have e : ((-0.83 + -2.076 * (√altitude / 60.0)) * (2 * Real.pi / 360)) =
        ((-0.83 - 2.076 * √altitude / 60) * (2 * Real.pi / 360)) := by
      have e60 : (60.0 : ℝ) = 60 := by norm_num
      rw [e60]; ring
    rw [e]
  · simp [math.Sqrt, ha]

theorem Mod_360 (x : ℝ) : math.Mod x 360.0 = math.Mod x 360 := by norm_num

/-- A nonnegative dividend has its remainder in `[0, 360)`. -/
theorem Mod_360_of_nonneg {x : ℝ} (h : 0 ≤ x) :
    0 ≤ math.Mod x 360 ∧ math.Mod x 360 < 360 := by
  have hq : (0 : ℝ) ≤ x / 360 := by positivity
  have h1 := Int.floor_le (x / 360)
  have h2 := Int.lt_floor_add_one (x / 360)
  simp only [math.Mod, math.truncate, hq, if_true]
  constructor <;> linarith

/-- A negative dividend has its remainder in `(-360, 0]`. -/
theorem Mod_360_of_neg {x : ℝ} (h : x < 0) :
    -360 < math.Mod x 360 ∧ math.Mod x 360 ≤ 0 := by
  have hq : ¬ (0 : ℝ) ≤ x / 360 := by
    have : x / 360 < 0 := by linarith
    linarith
  have h1 := Int.le_ceil (x / 360)
  have h2 := Int.ceil_lt_add_one (x / 360)
  simp only [math.Mod, math.truncate, hq, if_false]
  constructor <;> linarith

theorem Mod_360_abs_lt (x : ℝ) : -360 < math.Mod x 360 ∧ math.Mod x 360 < 360 := by
  rcases le_or_lt 0 x with h | h
  · have := Mod_360_of_nonneg h
    exact ⟨by linarith, this.2⟩
  · have := Mod_360_of_neg h
    exact ⟨this.1, by linarith⟩

theorem truncate_of_floor {q : ℝ} {k : ℤ} (h0 : 0 ≤ q) (h1 : (k : ℝ) ≤ q) (h2 : q < k + 1) :
    math.truncate q = k := by
  simp only [math.truncate, h0, if_true]
  exact Int.floor_eq_iff.mpr ⟨h1, h2⟩

theorem truncate_of_ceil {q : ℝ} {k : ℤ} (h0 : q < 0) (h1 : (k : ℝ) - 1 < q) (h2 : q ≤ k) :
    math.truncate q = k := by
  have : ¬ (0 : ℝ) ≤ q := not_le.mpr h0
  simp only [math.truncate, this, if_false]
  exact Int.ceil_eq_iff.mpr ⟨h1, h2⟩

/-- A dividend in `[360 k, 360 (k + 1))` with `k ≥ 0` is reduced by `360 k`. -/
theorem Mod_360_of_mem {x : ℝ} (k : ℕ) (h1 : 360 * (k : ℝ) ≤ x) (h2 : x < 360 * ((k : ℝ) + 1)) :
    math.Mod x 360 = x - 360 * k := by
  have hk : (0 : ℝ) ≤ k := Nat.cast_nonneg k
  have e : math.truncate (x / 360) = (k : ℤ) := by
    apply truncate_of_floor
    · have : 0 ≤ x := by nlinarith
      positivity
    · push_cast; linarith
    · push_cast; linarith
  simp [math.Mod, e]

/-- A dividend in `(-360, 0)` is its own remainder. -/
theorem Mod_360_of_neg_small {x : ℝ} (h1 : -360 < x) (h2 : x < 0) : math.Mod x 360 = x := by
  have e : math.truncate (x / 360) = 0 := by
    apply truncate_of_ceil
    · linarith
    · push_cast; linarith
    · push_cast; linarith
  simp [math.Mod, e]

/-- The equation of center is at most `1.9148 + 0.02 + 0.0003` in absolute value. -/
theorem abs_center_le (m : ℝ) : |center m| ≤ 1.9351 := by
  unfold center
  simp only []
  have h1 := abs_le.mp (Real.abs_sin_le_one (m * DegToRad))
  have h2 := abs_le.mp (Real.abs_sin_le_one (2.0 * (m * DegToRad)))
  have h3 := abs_le.mp (Real.abs_sin_le_one (3.0 * (m * DegToRad)))
  rw [abs_le]
  constructor <;> norm_num <;> linarith [h1.1, h1.2, h2.1, h2.2, h3.1, h3.2]

theorem Times_eq (date : ℤ) (longitude latitude altitude : ℝ) :
    Times date longitude latitude altitude =
      julRiseAndSet (meanSolarNoon (((date : ℝ) - Jan1200012pm) + 0.0008) longitude)
        (meanSolarAnomaly (meanSolarNoon (((date : ℝ) - Jan1200012pm) + 0.0008) longitude))
        (timesEclipticLongitude date longitude)
        (hourAngle altitude latitude (timesEclipticLongitude date longitude)) := rfl

theorem hourAngle_of_arg {altitude latitude ecl q : ℝ}
    (harg : hourAngleArg altitude latitude ecl = some q) (h1 : -1 ≤ q) (h2 : q ≤ 1) :
    hourAngle altitude latitude ecl = some (Real.arccos q / DegToRad) := by
  simp [hourAngle, harg, math.Acos, h1, h2]

theorem hourAngle_of_arg_outside {altitude latitude ecl : ℝ}
    (h : ∀ q, hourAngleArg altitude latitude ecl = some q → q < -1 ∨ 1 < q) :
    hourAngle altitude latitude ecl = none := by
  cases harg : hourAngleArg altitude latitude ecl with
  | none => simp [hourAngle, harg]
  | some q =>
    have hq : ¬ (-1 ≤ q ∧ q ≤ 1) := by
      rcases h q harg with h' | h'
      · intro hc; linarith [hc.1]
      · intro hc; linarith [hc.2]
    simp [hourAngle, harg, math.Acos, hq]

theorem hourAngle_of_negative {altitude : ℝ} (latitude ecl : ℝ) (h : altitude < 0) :
    hourAngle altitude latitude ecl = none := by
  have hs : math.Sqrt altitude = none := by simp [math.Sqrt, h]
  simp [hourAngle, hourAngleArg, hs]

theorem DegToRad_gt : 0.017453288 < DegToRad := by
  rw [DegToRad_eq]
  have := Real.pi_gt_d6
  norm_num at this ⊢
  linarith

theorem DegToRad_lt : DegToRad < 0.017453295 := by
  rw [DegToRad_eq]
  have := Real.pi_lt_d6
  norm_num at this ⊢
  linarith

theorem abs_sinDeclination_le (ecl : ℝ) : |sinDeclination ecl| ≤ 0.4091 := by
  unfold sinDeclination
  have hk1 := DegToRad_gt
  have hk2 := DegToRad_lt
  have h0 : (0 : ℝ) ≤ 23.43713 * DegToRad := by norm_num at hk1 ⊢; nlinarith
  have h1 : Real.sin (23.43713 * DegToRad) ≤ 23.43713 * DegToRad := Real.sin_le h0
  have h2 : 0 ≤ Real.sin (23.43713 * DegToRad) :=
    Real.sin_nonneg_of_nonneg_of_le_pi h0 (by rw [DegToRad_eq]; nlinarith [Real.pi_pos])
  have h3 := Real.abs_sin_le_one (ecl * DegToRad)
  rw [abs_mul, abs_of_nonneg h2]
  have h4 : Real.sin (23.43713 * DegToRad) ≤ 0.4091 := by norm_num at hk2 h1 ⊢; linarith
  nlinarith [abs_nonneg (Real.sin (ecl * DegToRad))]

theorem sinDeclination_sq_le (ecl : ℝ) : sinDeclination ecl ^ 2 ≤ 0.1674 := by
  have h := abs_le.mp (abs_sinDeclination_le ecl)
  norm_num at h ⊢
  nlinarith [h.1, h.2]

/-- The cosine of the solar declination is at least `0.91`. -/
theorem sqrt_one_sub_sinDeclination_sq_ge (ecl : ℝ) :
    0.91 ≤ √(1 - sinDeclination ecl ^ 2) := by
  apply Real.le_sqrt_of_sq_le
  have := sinDeclination_sq_le ecl
  norm_num at this ⊢
  linarith

/-- The argument of `math.Acos` for a nonnegative altitude, with the declination
eliminated: `sin (asin x) = x` and `cos (asin x) = sqrt (1 - x^2)`. -/
theorem hourAngleArg_of_nonneg {altitude : ℝ} (latitude ecl : ℝ) (h : 0 ≤ altitude) :
    hourAngleArg altitude latitude ecl =
      quotient
        (Real.sin ((-0.83 + -2.076 * (√altitude / 60)) * DegToRad) -
          Real.sin (latitude * DegToRad) * sinDeclination ecl)
        (Real.cos (latitude * DegToRad) * √(1 - sinDeclination ecl ^ 2)) := by
  have hk : DegToRad ≠ 0 := DegToRad_pos.ne'
  have hx := abs_le.mp ((abs_sinDeclination_le ecl).trans (by norm_num : (0.4091 : ℝ) ≤ 1))
  unfold hourAngleArg
  rw [Asin_sin_mul_sin]
  simp only [math.Sqrt, h, if_true, Option.bind_eq_bind, Option.some_bind]
  rw [div_mul_cancel₀ _ hk]
  have e : Real.sin (ecl * DegToRad) * Real.sin (23.43713 * DegToRad) = sinDeclination ecl := rfl
  rw [e, Real.sin_arcsin hx.1 hx.2, Real.cos_arcsin]
  norm_num

/-- `sin ((270 + x)°) = -cos (x°)`. -/
theorem sin_deg_270_add (x : ℝ) :
    Real.sin ((270 + x) * DegToRad) = -Real.cos (x * DegToRad) := by
  have e : (270 + x) * DegToRad = x * DegToRad + Real.pi / 2 + Real.pi := by
    rw [DegToRad_eq]; ring
  rw [e, Real.sin_add_pi, Real.sin_add_pi_div_two]

/-- `sin ((90 - x)°) = cos (x°)`. -/
theorem sin_deg_90_sub (x : ℝ) :
    Real.sin ((90 - x) * DegToRad) = Real.cos (x * DegToRad) := by
  have e : (90 - x) * DegToRad = Real.pi / 2 - x * DegToRad := by
    rw [DegToRad_eq]; ring
  rw [e, Real.sin_pi_div_two_sub]

/-- `cos ((90 - x)°) = sin (x°)`. -/
theorem cos_deg_90_sub (x : ℝ) :
    Real.cos ((90 - x) * DegToRad) = Real.sin (x * DegToRad) := by
  have e : (90 - x) * DegToRad = Real.pi / 2 - x * DegToRad := by
    rw [DegToRad_eq]; ring
  rw [e, Real.cos_pi_div_two_sub]

/-- At altitude 0 the horizon term is `sin (-0.83°)`. -/
theorem sin_horizon_zero :
    Real.sin ((-0.83 + -2.076 * (√(0 : ℝ) / 60)) * DegToRad) = -Real.sin (0.83 * DegToRad) := by
  rw [← Real.sin_neg]
  congr 1
  simp

theorem sin_horizon_mem : 0 ≤ Real.sin (0.83 * DegToRad) ∧ Real.sin (0.83 * DegToRad) ≤ 0.0145 := by
  have hk1 := DegToRad_gt
  have hk2 := DegToRad_lt
  have hs0 : (0 : ℝ) ≤ 0.83 * DegToRad := by norm_num at hk1 ⊢; nlinarith
  have hs1 : Real.sin (0.83 * DegToRad) ≤ 0.83 * DegToRad := Real.sin_le hs0
  refine ⟨Real.sin_nonneg_of_nonneg_of_le_pi hs0 (by rw [DegToRad_eq]; nlinarith [Real.pi_pos]), ?_⟩
  norm_num at hk2 hs1 ⊢
  linarith

/-- The sine of the obliquity `23.43713°` is at least `0.39`. -/
theorem sin_obliquity_ge : 0.39 ≤ Real.sin (23.43713 * DegToRad) := by
  have hk1 := DegToRad_gt
  have hk2 := DegToRad_lt
  have hx1 : (0.409 : ℝ) ≤ 23.43713 * DegToRad := by norm_num at hk1 ⊢; linarith
  have hx2 : 23.43713 * DegToRad ≤ (0.4091 : ℝ) := by norm_num at hk2 ⊢; linarith
  have h := Real.sin_gt_sub_cube (x := 23.43713 * DegToRad) (by linarith) (by linarith)
  have hx3 : (23.43713 * DegToRad) ^ 3 ≤ 0.4091 ^ 3 :=
    pow_le_pow_left₀ (by linarith) hx2 3
  norm_num at hx1 hx3 h ⊢
  linarith

/-- The ecliptic longitude at date 2451545 and longitude 0. -/
theorem timesEclipticLongitude_2451545 :
    timesEclipticLongitude 2451545 0 = 280.467088480224 + center 357.529888480224 := by
  have e : meanSolarAnomaly (meanSolarNoon ((((2451545 : ℤ) : ℝ) - Jan1200012pm) + 0.0008) 0)
      = 357.529888480224 := by
    unfold meanSolarAnomaly meanSolarNoon Jan1200012pm
    rw [Mod_360, Mod_360_of_mem 0] <;> norm_num
  have hc := abs_le.mp (abs_center_le 357.529888480224)
  unfold timesEclipticLongitude
  rw [e]
  unfold eclipticLongitude
  rw [Mod_360, Mod_360_of_mem 1]
  · norm_num; ring
  · norm_num at hc ⊢; linarith [hc.1]
  · norm_num at hc ⊢; linarith [hc.2]

/-- The ecliptic longitude at date 2451900 and longitude 0. -/
theorem timesEclipticLongitude_2451900 :
    timesEclipticLongitude 2451900 0 = 270.355187880224 + center 347.417987880224 := by
  have e : meanSolarAnomaly (meanSolarNoon ((((2451900 : ℤ) : ℝ) - Jan1200012pm) + 0.0008) 0)
      = 347.417987880224 := by
    unfold meanSolarAnomaly meanSolarNoon Jan1200012pm
    rw [Mod_360, Mod_360_of_mem 1] <;> norm_num
  have hc := abs_le.mp (abs_center_le 347.417987880224)
  unfold timesEclipticLongitude
  rw [e]
  unfold eclipticLongitude
  rw [Mod_360, Mod_360_of_mem 1]
  · norm_num; ring
  · norm_num at hc ⊢; linarith [hc.1]
  · norm_num at hc ⊢; linarith [hc.2]

/-- Near `270°` the sine is close to `-1`: for `|x - 270| ≤ 13` degrees,
`sin (x°) ≤ -0.97`. -/
theorem sin_deg_near_270 {x : ℝ} (h1 : 257 ≤ x) (h2 : x ≤ 283) :
    Real.sin (x * DegToRad) ≤ -0.97 := by
  have hk1 := DegToRad_pos
  have hk2 := DegToRad_lt
  have e : x = 270 + (x - 270) := by ring
  rw [e, sin_deg_270_add]
  have hc := Real.one_sub_sq_div_two_le_cos (x := (x - 270) * DegToRad)
  have hb : ((x - 270) * DegToRad) ^ 2 ≤ 0.06 := by
    have h3 : |(x - 270) * DegToRad| ≤ 13 * 0.017453295 := by
      rw [abs_mul, abs_of_pos hk1]
      have : |x - 270| ≤ 13 := abs_le.mpr ⟨by linarith, by linarith⟩
      nlinarith [abs_nonneg (x - 270)]
    have := sq_le_sq' (neg_le_of_abs_le h3) (le_of_abs_le h3)
    norm_num at this ⊢
    linarith
  norm_num at hb ⊢
  linarith

theorem sinDeclination_le_of_near_270 {ecl : ℝ} (h1 : 257 ≤ ecl) (h2 : ecl ≤ 283) :
    sinDeclination ecl ≤ -0.37 := by
  have ha := sin_deg_near_270 h1 h2
  have hb := sin_obliquity_ge
  unfold sinDeclination
  norm_num at ha hb ⊢
  nlinarith

theorem quotient_of_ne (x : ℝ) {y : ℝ} (h : y ≠ 0) : quotient x y = some (x / y) := by
  simp [quotient, h]

/-- At date 2451900 (winter solstice), longitude 0, latitude 80 and altitude 0
the inverse-cosine argument exceeds 1: polar night. -/
theorem timesAcosArg_polar_night :
    ∃ q : ℝ, timesAcosArg 2451900 0 80 0 = some q ∧ 1 < q := by
  have hk := DegToRad_pos
  have hk2 := DegToRad_lt
  have hc := abs_le.mp (abs_center_le 347.417987880224)
  have hx : sinDeclination (timesEclipticLongitude 2451900 0) ≤ -0.37 := by
    apply sinDeclination_le_of_near_270 <;> rw [timesEclipticLongitude_2451900] <;>
      norm_num at hc ⊢ <;> linarith [hc.1, hc.2]
  have hcos := sqrt_one_sub_sinDeclination_sq_ge (timesEclipticLongitude 2451900 0)
  have hcos1 : √(1 - sinDeclination (timesEclipticLongitude 2451900 0) ^ 2) ≤ 1 := by
    rw [Real.sqrt_le_iff]
    exact ⟨by norm_num, by nlinarith [sq_nonneg (sinDeclination (timesEclipticLongitude 2451900 0))]⟩
  have hs := sin_horizon_mem
  unfold timesAcosArg
  rw [hourAngleArg_of_nonneg _ _ le_rfl, sin_horizon_zero]
  generalize sinDeclination (timesEclipticLongitude 2451900 0) = x at hx hcos hcos1 ⊢
  have e80 : (80 : ℝ) = 90 - 10 := by norm_num
  have h10 : (0 : ℝ) < 10 * DegToRad := by positivity
  have hB1 : 0 < Real.cos (80 * DegToRad) := by
    rw [e80, cos_deg_90_sub]
    exact Real.sin_pos_of_pos_of_lt_pi h10 (by rw [DegToRad_eq]; nlinarith [Real.pi_pos])
  have hB2 : Real.cos (80 * DegToRad) ≤ 0.1746 := by
    rw [e80, cos_deg_90_sub]
    have := Real.sin_le h10.le
    norm_num at hk2 this ⊢
    linarith
  have hA : 0.98 ≤ Real.sin (80 * DegToRad) := by
    rw [e80, sin_deg_90_sub]
    have h := Real.one_sub_sq_div_two_le_cos (x := 10 * DegToRad)
    have hb : (10 * DegToRad) ^ 2 ≤ 0.04 := by
      have := pow_le_pow_left₀ h10.le (by linarith : 10 * DegToRad ≤ 0.2) 2
      norm_num at this ⊢
      linarith
    norm_num at hb h ⊢
    linarith
  have hc0 : (0 : ℝ) < √(1 - x ^ 2) := lt_of_lt_of_le (by norm_num) hcos
  have hden : 0 < Real.cos (80 * DegToRad) * √(1 - x ^ 2) := mul_pos hB1 hc0
  refine ⟨_, quotient_of_ne _ hden.ne', ?_⟩
  rw [one_lt_div hden]
  have h1 : Real.cos (80 * DegToRad) * √(1 - x ^ 2) ≤ 0.1746 := by
    norm_num at hB2 ⊢
    nlinarith
  have h2 : 0.36 ≤ -(Real.sin (80 * DegToRad) * x) := by
    norm_num at hA hx ⊢
    nlinarith
  norm_num at h1 h2 hs ⊢
  linarith [hs.2]

/-- Taylor bounds of the sine on an interval inside `[0, 1]`. -/
theorem sin_mem_of_mem {lo x hi : ℝ} (h0 : 0 ≤ lo) (h1 : lo ≤ x) (h2 : x ≤ hi) (h3 : hi ≤ 1) :
    lo - lo ^ 3 / 6 - lo ^ 4 * (5 / 96) ≤ Real.sin x ∧
      Real.sin x ≤ hi - hi ^ 3 / 6 + hi ^ 4 * (5 / 96) := by
  have hp := Real.one_le_pi_div_two
  have hlo := abs_le.mp (Real.sin_bound (x := lo) (by rw [abs_of_nonneg h0]; linarith))
  have hhi := abs_le.mp (Real.sin_bound (x := hi) (by rw [abs_of_nonneg (by linarith)]; linarith))
  rw [abs_of_nonneg h0] at hlo
  rw [abs_of_nonneg (by linarith : (0 : ℝ) ≤ hi)] at hhi
  have m1 : Real.sin lo ≤ Real.sin x :=
    Real.sin_le_sin_of_le_of_le_pi_div_two (by linarith) (by linarith) h1
  have m2 : Real.sin x ≤ Real.sin hi :=
    Real.sin_le_sin_of_le_of_le_pi_div_two (by linarith) (by linarith) h2
  constructor <;> linarith [hlo.1, hhi.2]

/-- Taylor bounds of the cosine on an interval inside `[0, 1]`. -/
theorem cos_mem_of_mem {lo x hi : ℝ} (h0 : 0 ≤ lo) (h1 : lo ≤ x) (h2 : x ≤ hi) (h3 : hi ≤ 1) :
    1 - hi ^ 2 / 2 - hi ^ 4 * (5 / 96) ≤ Real.cos x ∧
      Real.cos x ≤ 1 - lo ^ 2 / 2 + lo ^ 4 * (5 / 96) := by
  have hp := Real.one_le_pi_div_two
  have hpp := Real.pi_pos
  have hlo := abs_le.mp (Real.cos_bound (x := lo) (by rw [abs_of_nonneg h0]; linarith))
  have hhi := abs_le.mp (Real.cos_bound (x := hi) (by rw [abs_of_nonneg (by linarith)]; linarith))
  rw [abs_of_nonneg h0] at hlo
  rw [abs_of_nonneg (by linarith : (0 : ℝ) ≤ hi)] at hhi
  have m1 : Real.cos x ≤ Real.cos lo :=
    Real.cos_le_cos_of_nonneg_of_le_pi h0 (by linarith) h1
  have m2 : Real.cos hi ≤ Real.cos x :=
    Real.cos_le_cos_of_nonneg_of_le_pi (by linarith) (by linarith) h2
  constructor <;> linarith [hlo.2, hhi.1]

/-- An angle of `d` degrees, `u ≤ d ≤ v`, measured in radians. -/
theorem deg_mem {d u v : ℝ} (h0 : 0 ≤ u) (h1 : u ≤ d) (h2 : d ≤ v) :
    u * 0.017453288 ≤ d * DegToRad ∧ d * DegToRad ≤ v * 0.017453295 := by
  have hk1 := DegToRad_gt
  have hk2 := DegToRad_lt
  have hk := DegToRad_pos
  constructor
  · have : u * 0.017453288 ≤ d * 0.017453288 := by nlinarith
    nlinarith
  · have : d * 0.017453295 ≤ v * 0.017453295 := by nlinarith
    nlinarith

/-- Sine of an angle of `d` degrees, `u ≤ d ≤ v`, at most one radian. -/
theorem sin_deg_mem {d u v a b : ℝ} (h0 : 0 ≤ u) (h1 : u ≤ d) (h2 : d ≤ v)
    (h3 : v * 0.017453295 ≤ 1)
    (ha : a ≤ u * 0.017453288 - (u * 0.017453288) ^ 3 / 6 - (u * 0.017453288) ^ 4 * (5 / 96))
    (hb : v * 0.017453295 - (v * 0.017453295) ^ 3 / 6 + (v * 0.017453295) ^ 4 * (5 / 96) ≤ b) :
    a ≤ Real.sin (d * DegToRad) ∧ Real.sin (d * DegToRad) ≤ b := by
  obtain ⟨m1, m2⟩ := deg_mem h0 h1 h2
  have h := sin_mem_of_mem (by positivity) m1 m2 h3
  exact ⟨ha.trans h.1, h.2.trans hb⟩

/-- Cosine of an angle of `d` degrees, `u ≤ d ≤ v`, at most one radian. -/
theorem cos_deg_mem {d u v a b : ℝ} (h0 : 0 ≤ u) (h1 : u ≤ d) (h2 : d ≤ v)
    (h3 : v * 0.017453295 ≤ 1)
    (ha : a ≤ 1 - (v * 0.017453295) ^ 2 / 2 - (v * 0.017453295) ^ 4 * (5 / 96))
    (hb : 1 - (u * 0.017453288) ^ 2 / 2 + (u * 0.017453288) ^ 4 * (5 / 96) ≤ b) :
    a ≤ Real.cos (d * DegToRad) ∧ Real.cos (d * DegToRad) ≤ b := by
  obtain ⟨m1, m2⟩ := deg_mem h0 h1 h2
  have h := cos_mem_of_mem (by positivity) m1 m2 h3
  exact ⟨ha.trans h.1, h.2.trans hb⟩

/-- Doubling an angle: bounds of `sin (2x)` and `cos (2x)` from bounds of
`sin x` and `cos x`. -/
theorem sin_cos_two_mul_mem {x s1 s2 c1 c2 : ℝ} (hs0 : 0 ≤ s1) (hc0 : 0 ≤ c1)
    (hs : s1 ≤ Real.sin x ∧ Real.sin x ≤ s2) (hc : c1 ≤ Real.cos x ∧ Real.cos x ≤ c2) :
    (2 * s1 * c1 ≤ Real.sin (2 * x) ∧ Real.sin (2 * x) ≤ 2 * s2 * c2) ∧
      (1 - 2 * s2 ^ 2 ≤ Real.cos (2 * x) ∧ Real.cos (2 * x) ≤ 1 - 2 * s1 ^ 2) := by
  have e : Real.cos (2 * x) = 1 - 2 * Real.sin x ^ 2 := by
    rw [Real.cos_two_mul, Real.cos_sq']; ring
  rw [Real.sin_two_mul, e]
  obtain ⟨hs1, hs2⟩ := hs
  obtain ⟨hc1, hc2⟩ := hc
  refine ⟨⟨?_, ?_⟩, ⟨?_, ?_⟩⟩
  · nlinarith [mul_le_mul hs1 hc1 hc0 (by linarith : (0 : ℝ) ≤ Real.sin x)]
  · nlinarith [mul_le_mul hs2 hc2 (by linarith : (0 : ℝ) ≤ Real.cos x) (by linarith : (0 : ℝ) ≤ s2)]
  · nlinarith [mul_le_mul hs2 hs2 (by linarith : (0 : ℝ) ≤ Real.sin x) (by linarith : (0 : ℝ) ≤ s2)]
  · nlinarith [mul_le_mul hs1 hs1 hs0 (by linarith : (0 : ℝ) ≤ Real.sin x)]

/-- Sine and cosine of the reference latitude `51.5°`, by two doublings from
`12.875°`. -/
theorem sin_cos_reference_latitude :
    (0.78183 ≤ Real.sin (51.5 * DegToRad) ∧ Real.sin (51.5 * DegToRad) ≤ 0.78320) ∧
      (0.62205 ≤ Real.cos (51.5 * DegToRad) ∧ Real.cos (51.5 * DegToRad) ≤ 0.62317) := by
  have hs : 0.222687 ≤ Real.sin (12.875 * DegToRad) ∧ Real.sin (12.875 * DegToRad) ≤ 0.222954 :=
    sin_deg_mem (u := 12.875) (v := 12.875) (by norm_num) le_rfl le_rfl (by norm_num)
      (by norm_num) (by norm_num)
  have hc : 0.974619 ≤ Real.cos (12.875 * DegToRad) ∧ Real.cos (12.875 * DegToRad) ≤ 0.974886 :=
    cos_deg_mem (u := 12.875) (v := 12.875) (by norm_num) le_rfl le_rfl (by norm_num)
      (by norm_num) (by norm_num)
  obtain ⟨hs2, hc2⟩ := sin_cos_two_mul_mem (by norm_num) (by norm_num) hs hc
  have hs2' : 0.434069 ≤ Real.sin (2 * (12.875 * DegToRad)) ∧
      Real.sin (2 * (12.875 * DegToRad)) ≤ 0.434710 :=
    ⟨le_trans (by norm_num) hs2.1, le_trans hs2.2 (by norm_num)⟩
  have hc2' : 0.900583 ≤ Real.cos (2 * (12.875 * DegToRad)) ∧
      Real.cos (2 * (12.875 * DegToRad)) ≤ 0.900822 :=
    ⟨le_trans (by norm_num) hc2.1, le_trans hc2.2 (by norm_num)⟩
  obtain ⟨hs4, hc4⟩ := sin_cos_two_mul_mem (by norm_num) (by norm_num) hs2' hc2'
  have e : 2 * (2 * (12.875 * DegToRad)) = 51.5 * DegToRad := by ring
  rw [e] at hs4 hc4
  exact ⟨⟨le_trans (by norm_num) hs4.1, le_trans hs4.2 (by norm_num)⟩,
    ⟨le_trans (by norm_num) hc4.1, le_trans hc4.2 (by norm_num)⟩⟩

/-- `sin ((360 n - x)°) = -sin (x°)`. -/
theorem sin_deg_360_mul_sub (n : ℕ) (x : ℝ) :
    Real.sin ((360 * (n : ℝ) - x) * DegToRad) = -Real.sin (x * DegToRad) := by
  have e : (360 * (n : ℝ) - x) * DegToRad = (n : ℝ) * (2 * Real.pi) - x * DegToRad := by
    rw [DegToRad_eq]; ring
  rw [e, Real.sin_nat_mul_two_pi_sub]

/-- `sin ((540 + x)°) = -sin (x°)`. -/
theorem sin_deg_540_add (x : ℝ) :
    Real.sin ((540 + x) * DegToRad) = -Real.sin (x * DegToRad) := by
  have e : (540 + x) * DegToRad = x * DegToRad + Real.pi + ((1 : ℕ) : ℝ) * (2 * Real.pi) := by
    rw [DegToRad_eq]; push_cast; ring
  rw [e, Real.sin_add_nat_mul_two_pi, Real.sin_add_pi]

/-- The mean solar anomaly at date 2451545 and longitude 0. -/
theorem meanSolarAnomaly_2451545 :
    meanSolarNoon ((((2451545 : ℤ) : ℝ) - Jan1200012pm) + 0.0008) 0 = 0.0008 ∧
    meanSolarAnomaly (meanSolarNoon ((((2451545 : ℤ) : ℝ) - Jan1200012pm) + 0.0008) 0)
      = 357.529888480224 := by
  constructor
  · unfold meanSolarNoon Jan1200012pm; norm_num
  · unfold meanSolarAnomaly meanSolarNoon Jan1200012pm
    rw [Mod_360, Mod_360_of_mem 0] <;> norm_num

/-- The sine of the reference mean solar anomaly `357.529888480224°`. -/
theorem sin_reference_anomaly :
    -0.043099 ≤ Real.sin (357.529888480224 * DegToRad) ∧
      Real.sin (357.529888480224 * DegToRad) ≤ -0.043097 := by
  have e1 : (357.529888480224 : ℝ) = 360 * ((1 : ℕ) : ℝ) - 2.470111519776 := by norm_num
  have h1 : 0.043097 ≤ Real.sin (2.470111519776 * DegToRad) ∧
      Real.sin (2.470111519776 * DegToRad) ≤ 0.043099 :=
    sin_deg_mem (u := 2.470111519776) (v := 2.470111519776) (by norm_num) le_rfl le_rfl
      (by norm_num) (by norm_num) (by norm_num)
  rw [e1, sin_deg_360_mul_sub]
  constructor <;> linarith [h1.1, h1.2]

/-- The equation of center at the reference mean solar anomaly. -/
theorem center_reference :
    -0.08429 ≤ center 357.529888480224 ∧ center 357.529888480224 ≤ -0.08428 := by
  have h1 := sin_reference_anomaly
  have e2 : (2.0 : ℝ) * (357.529888480224 * DegToRad) =
      (360 * ((2 : ℕ) : ℝ) - 4.940223039552) * DegToRad := by push_cast; ring
  have e3 : (3.0 : ℝ) * (357.529888480224 * DegToRad) =
      (360 * ((3 : ℕ) : ℝ) - 7.410334559328) * DegToRad := by push_cast; ring
  have h2 : 0.086113 ≤ Real.sin (4.940223039552 * DegToRad) ∧
      Real.sin (4.940223039552 * DegToRad) ≤ 0.086120 :=
    sin_deg_mem (u := 4.940223039552) (v := 4.940223039552) (by norm_num) le_rfl le_rfl
      (by norm_num) (by norm_num) (by norm_num)
  have h3 : 0.128959 ≤ Real.sin (7.410334559328 * DegToRad) ∧
      Real.sin (7.410334559328 * DegToRad) ≤ 0.128989 :=
    sin_deg_mem (u := 7.410334559328) (v := 7.410334559328) (by norm_num) le_rfl le_rfl
      (by norm_num) (by norm_num) (by norm_num)
  unfold center
  simp only []
  rw [e2, e3, sin_deg_360_mul_sub, sin_deg_360_mul_sub]
  constructor <;> norm_num at h1 h2 h3 ⊢ <;> linarith [h1.1, h1.2, h2.1, h2.2, h3.1, h3.2]

/-- The ecliptic longitude of the reference scenario is about `280.3828°`. -/
theorem timesEclipticLongitude_reference :
    280.3827 ≤ timesEclipticLongitude 2451545 0 ∧ timesEclipticLongitude 2451545 0 ≤ 280.3829 := by
  have h := center_reference
  rw [timesEclipticLongitude_2451545]
  constructor <;> norm_num at h ⊢ <;> linarith [h.1, h.2]

/-- The sine of the solar declination of the reference scenario. -/
theorem sinDeclination_reference :
    -0.39259 ≤ sinDeclination (timesEclipticLongitude 2451545 0) ∧
      sinDeclination (timesEclipticLongitude 2451545 0) ≤ -0.38965 := by
  obtain ⟨hl1, hl2⟩ := timesEclipticLongitude_reference
  generalize timesEclipticLongitude 2451545 0 = l at hl1 hl2
  have hc : 0.98352 ≤ Real.cos ((l - 270) * DegToRad) ∧
      Real.cos ((l - 270) * DegToRad) ≤ 0.98364 :=
    cos_deg_mem (u := 10.3827) (v := 10.3829) (by norm_num) (by norm_num at hl1 ⊢; linarith)
      (by norm_num at hl2 ⊢; linarith) (by norm_num) (by norm_num) (by norm_num)
  have he : 0.39618 ≤ Real.sin (23.43713 * DegToRad) ∧
      Real.sin (23.43713 * DegToRad) ≤ 0.39911 :=
    sin_deg_mem (u := 23.43713) (v := 23.43713) (by norm_num) le_rfl le_rfl
      (by norm_num) (by norm_num) (by norm_num)
  have e : l = 270 + (l - 270) := by ring
  unfold sinDeclination
  rw [e, sin_deg_270_add, neg_mul]
  obtain ⟨hc1, hc2⟩ := hc
  obtain ⟨he1, he2⟩ := he
  have m1 := mul_le_mul hc1 he1 (by norm_num) (by linarith : (0 : ℝ) ≤ Real.cos ((l - 270) * DegToRad))
  have m2 := mul_le_mul hc2 he2 (by linarith : (0 : ℝ) ≤ Real.sin (23.43713 * DegToRad))
    (by norm_num : (0 : ℝ) ≤ 0.98364)
  constructor <;> norm_num at m1 m2 ⊢ <;> linarith

/-- The inverse-cosine argument of the reference scenario is about `0.509`. -/
theorem timesAcosArg_reference :
    ∃ q : ℝ, timesAcosArg 2451545 0 51.5 0 = some q ∧ 0.5 ≤ q ∧ q ≤ 0.5187 := by
  obtain ⟨hx1, hx2⟩ := sinDeclination_reference
  obtain ⟨⟨hA1, hA2⟩, ⟨hB1, hB2⟩⟩ := sin_cos_reference_latitude
  have hs : 0.014485 ≤ Real.sin (0.83 * DegToRad) ∧ Real.sin (0.83 * DegToRad) ≤ 0.014486 :=
    sin_deg_mem (u := 0.83) (v := 0.83) (by norm_num) le_rfl le_rfl
      (by norm_num) (by norm_num) (by norm_num)
  unfold timesAcosArg
  rw [hourAngleArg_of_nonneg _ _ le_rfl, sin_horizon_zero]
  generalize sinDeclination (timesEclipticLongitude 2451545 0) = x at hx1 hx2 ⊢
  have hc1 : 0.91971 ≤ √(1 - x ^ 2) := by
    apply Real.le_sqrt_of_sq_le
    norm_num at hx1 hx2 ⊢
    nlinarith
  have hc2 : √(1 - x ^ 2) ≤ 0.92097 := by
    rw [Real.sqrt_le_iff]
    refine ⟨by norm_num, ?_⟩
    norm_num at hx1 hx2 ⊢
    nlinarith
  have hden1 : 0.57210 ≤ Real.cos (51.5 * DegToRad) * √(1 - x ^ 2) := by
    have := mul_le_mul hB1 hc1 (by norm_num) (by linarith : (0 : ℝ) ≤ Real.cos (51.5 * DegToRad))
    norm_num at this ⊢
    linarith
  have hden2 : Real.cos (51.5 * DegToRad) * √(1 - x ^ 2) ≤ 0.57393 := by
    have := mul_le_mul hB2 hc2 (by linarith : (0 : ℝ) ≤ √(1 - x ^ 2)) (by norm_num : (0 : ℝ) ≤ 0.62317)
    norm_num at this ⊢
    linarith
  have hAx1 : 0.78183 * 0.38965 ≤ Real.sin (51.5 * DegToRad) * -x :=
    mul_le_mul hA1 (by linarith) (by norm_num) (by linarith)
  have hAx2 : Real.sin (51.5 * DegToRad) * -x ≤ 0.78320 * 0.39259 :=
    mul_le_mul hA2 (by linarith) (by linarith) (by norm_num)
  have hden : 0 < Real.cos (51.5 * DegToRad) * √(1 - x ^ 2) := lt_of_lt_of_le (by norm_num) hden1
  refine ⟨_, quotient_of_ne _ hden.ne', ?_, ?_⟩
  · rw [le_div_iff₀ hden]
    norm_num at hAx1 hden2 hs ⊢
    linarith [hs.2]
  · rw [div_le_iff₀ hden]
    norm_num at hAx2 hden1 hs ⊢
    linarith [hs.1]

/-- The hour angle of an argument in `[0.5, 0.5187]` lies in `[58.4, 60]` degrees. -/
theorem arccos_div_DegToRad_reference {q : ℝ} (h1 : 0.5 ≤ q) (h2 : q ≤ 0.5187) :
    58.4 ≤ Real.arccos q / DegToRad ∧ Real.arccos q / DegToRad ≤ 60 := by
  have hk := DegToRad_pos
  have hp := Real.pi_pos
  have hq1 : -1 ≤ q := by norm_num at h1 ⊢; linarith
  have hq2 : q ≤ 1 := by norm_num at h2 ⊢; linarith
  have hcos : 0.51874 ≤ Real.cos (58.4 * DegToRad) := by
    have e : (58.4 : ℝ) = 90 - 31.6 := by norm_num
    rw [e, cos_deg_90_sub]
    exact (sin_deg_mem (u := 31.6) (v := 31.6) (b := 1) (by norm_num) le_rfl le_rfl
      (by norm_num) (by norm_num) (by norm_num)).1
  constructor
  · rw [le_div_iff₀ hk]
    have h584 : 58.4 * DegToRad ≤ Real.pi := by rw [DegToRad_eq]; nlinarith
    rw [← Real.arccos_cos (by positivity) h584]
    apply Real.strictAntiOn_arccos.antitoneOn ⟨hq1, hq2⟩
      ⟨Real.neg_one_le_cos _, Real.cos_le_one _⟩
    norm_num at hcos h2 ⊢
    linarith
  · rw [div_le_iff₀ hk]
    have e60 : 60 * DegToRad = Real.pi / 3 := by rw [DegToRad_eq]; ring
    rw [e60, ← Real.arccos_cos (by positivity : (0 : ℝ) ≤ Real.pi / 3) (by linarith),
      Real.cos_pi_div_three]
    apply Real.strictAntiOn_arccos.antitoneOn ⟨by norm_num, by norm_num⟩ ⟨hq1, hq2⟩
    norm_num at h1 ⊢
    linarith

/-- The solar transit term `sin (2 L°)` of the reference scenario. -/
theorem sin_two_mul_reference_longitude :
    -0.35540 ≤ Real.sin (2 * timesEclipticLongitude 2451545 0 * DegToRad) ∧
      Real.sin (2 * timesEclipticLongitude 2451545 0 * DegToRad) ≤ -0.35359 := by
  obtain ⟨hl1, hl2⟩ := timesEclipticLongitude_reference
  generalize timesEclipticLongitude 2451545 0 = l at hl1 hl2
  have hy : 0.35359 ≤ Real.sin ((2 * l - 540) * DegToRad) ∧
      Real.sin ((2 * l - 540) * DegToRad) ≤ 0.35540 :=
    sin_deg_mem (u := 20.7654) (v := 20.7658) (by norm_num) (by norm_num at hl1 ⊢; linarith)
      (by norm_num at hl2 ⊢; linarith) (by norm_num) (by norm_num) (by norm_num)
  have e : 2 * l = 540 + (2 * l - 540) := by ring
  rw [e, sin_deg_540_add]
  constructor <;> linarith [hy.1, hy.2]

namespace Binary64

set_option maxHeartbeats 1000000

theorem roundEven_mem (y : ℝ) : roundEven y = ⌊y⌋ ∨ roundEven y = ⌊y⌋ + 1 := by
  unfold roundEven
  split_ifs <;> simp

theorem abs_roundEven_sub_le (y : ℝ) : |(roundEven y : ℝ) - y| ≤ 1 / 2 := by
  have h0 := Int.fract_nonneg y
  have h1 := Int.fract_lt_one y
  have hf : y = ⌊y⌋ + Int.fract y := (Int.floor_add_fract y).symm
  unfold roundEven
  rw [abs_le]
  split_ifs with a b c
  · constructor <;> linarith
  · push_cast; constructor <;> linarith
  · constructor <;> linarith
  · push_cast; constructor <;> linarith

theorem roundEven_eq_of_near {y : ℝ} (j : ℤ) (h : |y - j| < 1 / 2) : roundEven y = j := by
  have h1 := abs_roundEven_sub_le y
  have h2 := abs_lt.mp h
  have h3 := abs_le.mp h1
  have h4 : |((roundEven y - j : ℤ) : ℝ)| < 1 := by
    push_cast
    rw [abs_lt]
    constructor <;> linarith [h2.1, h2.2, h3.1, h3.2]
  have h5 : |roundEven y - j| < 1 := by exact_mod_cast h4
  have := Int.abs_lt_one_iff.mp h5
  omega

theorem roundEven_intCast (j : ℤ) : roundEven (j : ℝ) = j :=
  roundEven_eq_of_near j (by simp)

/-- The exponent of the last place in the binade `[2^k, 2^(k+1))`. -/
theorem ulpExp_of_mem {x : ℝ} (k : ℤ) (hk : -1022 ≤ k) (h1 : (2 : ℝ) ^ k ≤ |x|)
    (h2 : |x| < (2 : ℝ) ^ (k + 1)) : ulpExp x = k - 52 := by
  have hpos : 0 < |x| := lt_of_lt_of_le (by positivity) h1
  have e1 : k ≤ Int.log 2 |x| := by
    rw [← Int.zpow_le_iff_le_log (by norm_num) hpos]
    exact_mod_cast h1
  have e2 : Int.log 2 |x| < k + 1 := by
    rw [← Int.lt_zpow_iff_log_lt (by norm_num) hpos]
    exact_mod_cast h2
  unfold ulpExp
  rw [max_eq_left (by omega)]
  omega

theorem float64_zero : float64 0 = 0 := by
  unfold float64
  rw [zero_div]
  have : roundEven 0 = 0 := by exact_mod_cast roundEven_intCast 0
  rw [this]
  simp

theorem float64_eq_of_near {x : ℝ} (k j : ℤ) (hk : -1022 ≤ k) (h1 : (2 : ℝ) ^ k ≤ |x|)
    (h2 : |x| < (2 : ℝ) ^ (k + 1)) (h : |x / (2 : ℝ) ^ (k - 52) - j| < 1 / 2) :
    float64 x = (j : ℝ) * (2 : ℝ) ^ (k - 52) := by
  unfold float64
  rw [ulpExp_of_mem k hk h1 h2, roundEven_eq_of_near j h]

/-- For numbers up to `B` in absolute value the rounding error is at most
`B * 2^-52`. -/
theorem abs_float64_sub_le_of_le {x B : ℝ} (h : |x| ≤ B) (hB : (2 : ℝ) ^ (-1000 : ℤ) ≤ B) :
    |float64 x - x| ≤ B * (2 : ℝ) ^ (-52 : ℤ) := by
  -- The standard model of rounding: a relative error of `2^-53`, or an absolute
  -- error of `2^-1075` in the subnormal range.
  have abs_float64_sub_le (x : ℝ) :
      |float64 x - x| ≤ |x| * (2 : ℝ) ^ (-53 : ℤ) + (2 : ℝ) ^ (-1075 : ℤ) := by
    -- Rounding moves a number by at most half a unit in the last place.
    have abs_float64_sub_le_ulp (x : ℝ) :
        |float64 x - x| ≤ (2 : ℝ) ^ (ulpExp x - 1) := by
      have hp : (0 : ℝ) < 2 ^ ulpExp x := by positivity
      have e : float64 x - x =
          ((roundEven (x / (2 : ℝ) ^ ulpExp x) : ℝ) - x / (2 : ℝ) ^ ulpExp x) * 2 ^ ulpExp x := by
        unfold float64
        field_simp
      rw [e, abs_mul, abs_of_pos hp, zpow_sub_one₀ (by norm_num)]
      have := abs_roundEven_sub_le (x / (2 : ℝ) ^ ulpExp x)
      nlinarith
    rcases eq_or_ne x 0 with rfl | hx
    · rw [float64_zero]; simp; positivity
    have hpos : 0 < |x| := abs_pos.mpr hx
    refine (abs_float64_sub_le_ulp x).trans ?_
    unfold ulpExp
    rcases le_total (Int.log 2 |x|) (-1022) with h | h
    · rw [max_eq_right h]
      have : (0 : ℝ) ≤ |x| * (2 : ℝ) ^ (-53 : ℤ) := by positivity
      have e : (-1022 : ℤ) - 52 - 1 = -1075 := by norm_num
      rw [e]
      linarith
    · rw [max_eq_left h]
      have h1 : ((2 : ℕ) : ℝ) ^ Int.log 2 |x| ≤ |x| := Int.zpow_log_le_self (by norm_num) hpos
      have e : Int.log 2 |x| - 52 - 1 = Int.log 2 |x| + (-53) := by ring
      rw [e, zpow_add₀ (by norm_num)]
      have hq : (0 : ℝ) < (2 : ℝ) ^ (-53 : ℤ) := by positivity
      have hz : (0 : ℝ) < (2 : ℝ) ^ (-1075 : ℤ) := by positivity
      push_cast at h1
      nlinarith
  refine (abs_float64_sub_le x).trans ?_
  have h1 : (2 : ℝ) ^ (-1075 : ℤ) ≤ (2 : ℝ) ^ (-1000 : ℤ) * (2 : ℝ) ^ (-53 : ℤ) := by
    rw [← zpow_add₀ (by norm_num)]
    exact zpow_le_zpow_right₀ (by norm_num) (by norm_num)
  have h2 : (2 : ℝ) ^ (-52 : ℤ) = 2 * (2 : ℝ) ^ (-53 : ℤ) := by
    rw [show (-52 : ℤ) = -53 + 1 by norm_num, zpow_add_one₀ (by norm_num)]; ring
  have hq : (0 : ℝ) < (2 : ℝ) ^ (-53 : ℤ) := by positivity
  rw [h2]
  nlinarith

/-! Monotonicity of rounding -/

theorem intCast_le_roundEven {y : ℝ} {j : ℤ} (h : (j : ℝ) ≤ y) : j ≤ roundEven y := by
  have : j ≤ ⌊y⌋ := Int.le_floor.mpr h
  rcases roundEven_mem y with e | e <;> omega

theorem float64_neg (x : ℝ) : float64 (-x) = -float64 x := by
  have ulpExp_neg (x : ℝ) : ulpExp (-x) = ulpExp x := by
    unfold ulpExp; rw [abs_neg]
  have roundEven_neg (y : ℝ) : roundEven (-y) = -roundEven y := by
    rcases eq_or_ne (Int.fract y) 0 with h0 | h0
    · -- an integer
      have hy : y = ⌊y⌋ := by
        have := Int.floor_add_fract y
        rw [h0, add_zero] at this
        exact this.symm
      rw [hy, ← Int.cast_neg, roundEven_intCast, roundEven_intCast]
    · have hpos : 0 < Int.fract y := lt_of_le_of_ne (Int.fract_nonneg y) (Ne.symm h0)
      have h1 := Int.fract_lt_one y
      have hf := Int.floor_add_fract y
      have hfl : ⌊-y⌋ = -⌊y⌋ - 1 := by
        rw [Int.floor_eq_iff]
        push_cast
        constructor <;> linarith
      have hfr : Int.fract (-y) = 1 - Int.fract y := by
        rw [Int.fract, hfl, Int.fract]
        push_cast
        ring
      unfold roundEven
      rw [hfr, hfl]
      have hpar : Even (-⌊y⌋ - 1) ↔ ¬ Even ⌊y⌋ := by
        rw [Int.even_sub, even_neg]
        simp
      split_ifs <;> first | omega | (exfalso; linarith) | (exfalso; tauto)
  unfold float64
  rw [ulpExp_neg, neg_div, roundEven_neg]
  push_cast
  ring

theorem float64_nonneg {x : ℝ} (h : 0 ≤ x) : 0 ≤ float64 x := by
  unfold float64
  have h1 : ((0 : ℤ) : ℝ) ≤ x / (2 : ℝ) ^ ulpExp x := by
    rw [Int.cast_zero]; positivity
  have h2 : (0 : ℤ) ≤ roundEven (x / (2 : ℝ) ^ ulpExp x) := intCast_le_roundEven h1
  have h3 : (0 : ℝ) ≤ (roundEven (x / (2 : ℝ) ^ ulpExp x) : ℝ) := by exact_mod_cast h2
  positivity

/-- Rounding is monotone. -/
theorem float64_mono {x y : ℝ} (h : x ≤ y) : float64 x ≤ float64 y := by
  have float64_mono_of_pos {x y : ℝ} (hx : 0 < x) (h : x ≤ y) : float64 x ≤ float64 y := by
    have zpow_le_float64 {x : ℝ} (hx : 0 < x) (hn : -1022 ≤ Int.log 2 x) :
        (2 : ℝ) ^ (ulpExp x + 52) ≤ float64 x := by
      have hp : (0 : ℝ) < 2 ^ ulpExp x := by positivity
      have hE : ulpExp x = Int.log 2 x - 52 := by
        unfold ulpExp
        rw [abs_of_pos hx, max_eq_left hn]
      have h1 : ((2 : ℕ) : ℝ) ^ Int.log 2 x ≤ x := Int.zpow_log_le_self (by norm_num) hx
      have h3 : ((2 ^ 52 : ℤ) : ℝ) ≤ x / (2 : ℝ) ^ ulpExp x := by
        rw [le_div_iff₀ hp]
        push_cast at h1 ⊢
        have e : (2 : ℝ) ^ Int.log 2 x = 2 ^ 52 * 2 ^ ulpExp x := by
          rw [hE, zpow_sub₀ (by norm_num)]
          norm_num
          ring
        linarith
      have h4 : 2 ^ 52 ≤ roundEven (x / (2 : ℝ) ^ ulpExp x) := intCast_le_roundEven h3
      have h5 : (2 : ℝ) ^ 52 ≤ (roundEven (x / (2 : ℝ) ^ ulpExp x) : ℝ) := by exact_mod_cast h4
      unfold float64
      rw [zpow_add₀ (by norm_num)]
      have e52 : (2 : ℝ) ^ (52 : ℤ) = 2 ^ 52 := by norm_num
      rw [e52, mul_comm ((2 : ℝ) ^ ulpExp x)]
      exact mul_le_mul_of_nonneg_right h5 hp.le
    have float64_le_zpow {x : ℝ} (hx : 0 < x) : float64 x ≤ (2 : ℝ) ^ (ulpExp x + 53) := by
      have roundEven_le_of_le_intCast {y : ℝ} {j : ℤ} (h : y ≤ j) : roundEven y ≤ j := by
        rcases eq_or_lt_of_le h with h0 | h0
        · rw [h0, roundEven_intCast]
        · have : ⌊y⌋ < j := Int.floor_lt.mpr h0
          rcases roundEven_mem y with e | e <;> omega
      have hp : (0 : ℝ) < 2 ^ ulpExp x := by positivity
      have h1 : x < ((2 : ℕ) : ℝ) ^ (Int.log 2 x + 1) := Int.lt_zpow_succ_log_self (by norm_num) x
      have h2 : ((2 : ℕ) : ℝ) ^ (Int.log 2 x + 1) ≤ (2 : ℝ) ^ (ulpExp x + 53) := by
        push_cast
        apply zpow_le_zpow_right₀ (by norm_num)
        unfold ulpExp
        rw [abs_of_pos hx]
        have := le_max_left (Int.log 2 x) (-1022)
        omega
      have h3 : x / (2 : ℝ) ^ ulpExp x ≤ ((2 ^ 53 : ℤ) : ℝ) := by
        rw [div_le_iff₀ hp]
        push_cast
        have e : (2 : ℝ) ^ (ulpExp x + 53) = 2 ^ 53 * 2 ^ ulpExp x := by
          rw [zpow_add₀ (by norm_num)]
          norm_num
          ring
        linarith
      have h4 : roundEven (x / (2 : ℝ) ^ ulpExp x) ≤ 2 ^ 53 := roundEven_le_of_le_intCast h3
      have h5 : (roundEven (x / (2 : ℝ) ^ ulpExp x) : ℝ) ≤ 2 ^ 53 := by exact_mod_cast h4
      unfold float64
      rw [zpow_add₀ (by norm_num)]
      have e53 : (2 : ℝ) ^ (53 : ℤ) = 2 ^ 53 := by norm_num
      rw [e53, mul_comm ((2 : ℝ) ^ ulpExp x)]
      exact mul_le_mul_of_nonneg_right h5 hp.le
    have roundEven_mono {y z : ℝ} (h : y ≤ z) : roundEven y ≤ roundEven z := by
      have hfl : ⌊y⌋ ≤ ⌊z⌋ := Int.floor_le_floor h
      rcases eq_or_lt_of_le hfl with e | e
      · have hfr : Int.fract y ≤ Int.fract z := by
          have h1 := Int.floor_add_fract y
          have h2 := Int.floor_add_fract z
          have : (⌊y⌋ : ℝ) = ⌊z⌋ := by exact_mod_cast e
          linarith
        unfold roundEven
        rw [e]
        split_ifs <;> first | omega | (exfalso; linarith)
      · rcases roundEven_mem y with e1 | e1 <;> rcases roundEven_mem z with e2 | e2 <;> omega
    have hy : 0 < y := lt_of_lt_of_le hx h
    have hlog : Int.log 2 x ≤ Int.log 2 y := Int.log_mono_right hx h
    have hE : ulpExp x ≤ ulpExp y := by
      unfold ulpExp
      rw [abs_of_pos hx, abs_of_pos hy]
      have := max_le_max hlog (le_refl (-1022 : ℤ))
      omega
    rcases eq_or_lt_of_le hE with e | e
    · unfold float64
      rw [e]
      have hp : (0 : ℝ) < 2 ^ ulpExp y := by positivity
      have h1 : x / (2 : ℝ) ^ ulpExp y ≤ y / (2 : ℝ) ^ ulpExp y :=
        div_le_div_of_nonneg_right h hp.le
      have h2 := roundEven_mono h1
      have h3 : (roundEven (x / (2 : ℝ) ^ ulpExp y) : ℝ) ≤ roundEven (y / (2 : ℝ) ^ ulpExp y) := by
        exact_mod_cast h2
      exact mul_le_mul_of_nonneg_right h3 hp.le
    · have hn : -1022 ≤ Int.log 2 y := by
        by_contra hc
        push_neg at hc
        have : ulpExp y = -1074 := by
          unfold ulpExp
          rw [abs_of_pos hy, max_eq_right hc.le]
          norm_num
        have : -1074 ≤ ulpExp x := by
          unfold ulpExp
          have := le_max_right (Int.log 2 |x|) (-1022)
          omega
        omega
      calc float64 x ≤ (2 : ℝ) ^ (ulpExp x + 53) := float64_le_zpow hx
        _ ≤ (2 : ℝ) ^ (ulpExp y + 52) := zpow_le_zpow_right₀ (by norm_num) (by omega)
        _ ≤ float64 y := zpow_le_float64 hy hn
  rcases lt_trichotomy 0 x with hx | hx | hx
  · exact float64_mono_of_pos hx h
  · rw [← hx, float64_zero]
    exact float64_nonneg (hx ▸ h)
  · rcases le_or_lt 0 y with hy | hy
    · have h1 : float64 x ≤ 0 := by
        have := float64_nonneg (neg_nonneg.mpr hx.le)
        rw [float64_neg] at this
        linarith
      exact h1.trans (float64_nonneg hy)
    · have := float64_mono_of_pos (neg_pos.mpr hy) (neg_le_neg h)
      rw [float64_neg, float64_neg] at this
      linarith

/-! Evaluation of the binary64 stages -/

theorem float64_one : float64 1 = 1 := by
  have h := float64_eq_of_near (x := 1) 0 (2 ^ 52) (by norm_num) (by norm_num) (by norm_num)
    (by norm_num)
  rw [h]; norm_num

theorem Sin_zero : math.Sin 0 = 0 := by
  unfold math.Sin; rw [Real.sin_zero, float64_zero]

/-- Bounds pass through rounding with a slack of `1e-15` below 4 in absolute
value. -/
theorem float64_mem {x a b : ℝ} (h1 : a ≤ x) (h2 : x ≤ b) (ha : -4 ≤ a) (hb : b ≤ 4) :
    a - 1e-15 ≤ float64 x ∧ float64 x ≤ b + 1e-15 := by
  have hx : |x| ≤ 4 := abs_le.mpr ⟨by linarith, by linarith⟩
  have h := abs_le.mp (abs_float64_sub_le_of_le hx (by norm_num))
  norm_num at h ⊢
  constructor <;> linarith [h.1, h.2]

/-- Bounds pass through rounding with a slack of `1e-13` below 256 in absolute
value. -/
theorem float64_mem_wide {x a b : ℝ} (h1 : a ≤ x) (h2 : x ≤ b) (ha : -256 ≤ a) (hb : b ≤ 256) :
    a - 1e-13 ≤ float64 x ∧ float64 x ≤ b + 1e-13 := by
  have hx : |x| ≤ 256 := abs_le.mpr ⟨by linarith, by linarith⟩
  have h := abs_le.mp (abs_float64_sub_le_of_le hx (by norm_num))
  norm_num at h ⊢
  constructor <;> linarith [h.1, h.2]

theorem DegToRad_mem : 0.0174532925 ≤ DegToRad ∧ DegToRad ≤ 0.0174532926 := by
  have h := float64_mem (x := (2.0 * math.Pi) / 360.0) (a := 0.01745329251) (b := 0.01745329252)
    (by unfold math.Pi; norm_num) (by unfold math.Pi; norm_num) (by norm_num) (by norm_num)
  unfold DegToRad
  constructor <;> norm_num at h ⊢ <;> linarith [h.1, h.2]

theorem DegToRad_pos_float64 : 0 < DegToRad := lt_of_lt_of_le (by norm_num) DegToRad_mem.1

/-- Bounds pass through rounding, with room for the slack of `1e-15`. -/
theorem float64_mem_of {x a b c d : ℝ} (h1 : a ≤ x) (h2 : x ≤ b) (ha : -4 ≤ a) (hb : b ≤ 4)
    (hc : c ≤ a - 1e-15) (hd : b + 1e-15 ≤ d) : c ≤ float64 x ∧ float64 x ≤ d :=
  ⟨hc.trans (float64_mem h1 h2 ha hb).1, (float64_mem h1 h2 ha hb).2.trans hd⟩

/-- Bounds pass through rounding, with room for the slack of `1e-13`. -/
theorem float64_mem_wide_of {x a b c d : ℝ} (h1 : a ≤ x) (h2 : x ≤ b) (ha : -256 ≤ a)
    (hb : b ≤ 256) (hc : c ≤ a - 1e-13) (hd : b + 1e-13 ≤ d) : c ≤ float64 x ∧ float64 x ≤ d :=
  ⟨hc.trans (float64_mem_wide h1 h2 ha hb).1, (float64_mem_wide h1 h2 ha hb).2.trans hd⟩

theorem abs_float64_le {x b d : ℝ} (h : |x| ≤ b) (hb : b ≤ 4) (hd : b + 1e-15 ≤ d) :
    |float64 x| ≤ d := by
  have hx := abs_le.mp h
  have h0 : 0 ≤ b := (abs_nonneg x).trans h
  have := float64_mem_of hx.1 hx.2 (by linarith) hb (c := -d) (by linarith) hd
  exact abs_le.mpr this

theorem abs_mul_le_mul {x y a b : ℝ} (hx : |x| ≤ a) (hy : |y| ≤ b) : |x * y| ≤ a * b := by
  rw [abs_mul]
  exact mul_le_mul hx hy (abs_nonneg y) ((abs_nonneg x).trans hx)

/-- The product of a number of `[a, b]`, `b ≤ 0`, and a number of `[c, d]`,
`0 ≤ c`. -/
theorem mul_mem_of_nonpos {x y a b c d : ℝ} (hx1 : a ≤ x) (hx2 : x ≤ b) (hb : b ≤ 0)
    (hy1 : c ≤ y) (hy2 : y ≤ d) (hc : 0 ≤ c) : a * d ≤ x * y ∧ x * y ≤ b * c := by
  constructor <;> nlinarith

theorem abs_Sin_le_one (x : ℝ) : |math.Sin x| ≤ 1 := by
  unfold math.Sin
  rw [abs_le]
  constructor
  · have := float64_mono (Real.neg_one_le_sin x)
    rwa [float64_neg, float64_one] at this
  · have := float64_mono (Real.sin_le_one x)
    rwa [float64_one] at this

/-- The sine of a small negative angle. -/
theorem Sin_neg_mem {x u v c d : ℝ} (h0 : 0 ≤ u) (h1 : -v ≤ x) (h2 : x ≤ -u) (h3 : v ≤ 1)
    (hc : c ≤ -(v - v ^ 3 / 6 + v ^ 4 * (5 / 96)) - 1e-15)
    (hd : -(u - u ^ 3 / 6 - u ^ 4 * (5 / 96)) + 1e-15 ≤ d) :
    c ≤ math.Sin x ∧ math.Sin x ≤ d := by
  have hs := sin_mem_of_mem (x := -x) h0 (by linarith) (by linarith) h3
  rw [Real.sin_neg] at hs
  have hu1 : u ≤ 1 := by linarith
  have hv0 : 0 ≤ v := by linarith
  have p1 : v ^ 4 ≤ 1 := pow_le_one₀ hv0 h3
  have p2 : 0 ≤ v ^ 3 := by positivity
  have p3 : u ^ 4 ≤ 1 := pow_le_one₀ h0 hu1
  have p4 : u ^ 3 ≤ 1 := pow_le_one₀ h0 hu1
  have hl : (-4 : ℝ) ≤ -(v - v ^ 3 / 6 + v ^ 4 * (5 / 96)) := by linarith
  have hu : -(u - u ^ 3 / 6 - u ^ 4 * (5 / 96)) ≤ (4 : ℝ) := by linarith
  unfold math.Sin
  exact float64_mem_of (by linarith [hs.2]) (by linarith [hs.1]) (by linarith) (by linarith) hc hd

/-- The constant `-0.83` as a `float64`. -/
theorem float64_horizon_mem : -0.8300001 ≤ float64 (-0.83) ∧ float64 (-0.83) ≤ -0.8299999 :=
  float64_mem_of (a := -0.83) (b := -0.83) le_rfl le_rfl (by norm_num) (by norm_num)
    (by norm_num) (by norm_num)

/-- At latitude 0 the argument of `math.Acos` is the rounded quotient of the
sine of the horizon angle by the cosine of the declination. -/
theorem hourAngleArg_equator_mem {altitude root s1 s2 lo hi : ℝ} (ecl : ℝ)
    (hroot : math.Sqrt altitude = some root)
    (hs1 : s1 ≤ math.Sin (float64 (float64 (float64 (-0.83) +
      float64 (float64 (-2.076) * float64 (root / 60.0))) * DegToRad)))
    (hs2 : math.Sin (float64 (float64 (float64 (-0.83) +
      float64 (float64 (-2.076) * float64 (root / 60.0))) * DegToRad)) ≤ s2)
    (h1 : -1 ≤ s1) (h2 : s2 + 1e-15 ≤ 0)
    (hlo : lo ≤ (s1 - 1e-15) / 0.9115 - 1e-15) (hhi : s2 + 2e-15 ≤ hi) :
    ∃ q : ℝ, hourAngleArg altitude 0 ecl = some q ∧ lo ≤ q ∧ q ≤ hi := by
  -- The declination that `hourAngle` computes is a finite number whose cosine
  -- is at least `0.9116`, whatever the ecliptic longitude.
  have Cos_declination_mem (ecl : ℝ) :
      ∃ a : ℝ,
        math.Asin
          (float64
            (math.Sin (float64 (ecl * DegToRad)) *
              math.Sin (float64 (23.43713 * ((2.0 * math.Pi) / 360.0))))) = some a ∧
        0.9116 ≤ math.Cos (float64 (float64 (a / DegToRad) * DegToRad)) ∧
        math.Cos (float64 (float64 (a / DegToRad) * DegToRad)) ≤ 1 := by
    have Cos_of_abs_le {x : ℝ} (hx : |x| ≤ 0.4203) : 0.9116 ≤ math.Cos x ∧ math.Cos x ≤ 1 := by
      have Cos_le_one (x : ℝ) : math.Cos x ≤ 1 := by
        unfold math.Cos
        have := float64_mono (Real.cos_le_one x)
        rwa [float64_one] at this
      refine ⟨?_, Cos_le_one x⟩
      obtain ⟨h1, h2⟩ := abs_le.mp hx
      have hcos := Real.one_sub_sq_div_two_le_cos (x := x)
      have hsq : x ^ 2 ≤ 0.4203 ^ 2 := sq_le_sq' h1 h2
      have hcl : (0.9116 + 1e-15 : ℝ) ≤ Real.cos x := by norm_num at hsq hcos ⊢; linarith
      unfold math.Cos
      exact (float64_mem_of hcl (Real.cos_le_one x) (by norm_num) (by norm_num) (c := 0.9116)
        (d := 2) (by norm_num) (by norm_num)).1
    -- The declination in radians, after the round trip through degrees.
    have abs_declination_le {a : ℝ} (ha : |a| ≤ 0.4201) :
        |float64 (float64 (a / DegToRad) * DegToRad)| ≤ 0.4203 := by
      have abs_float64_wide_le {x b d : ℝ} (h : |x| ≤ b) (hb : b ≤ 256) (hd : b + 1e-13 ≤ d) :
          |float64 x| ≤ d := by
        have hx := abs_le.mp h
        have h0 : 0 ≤ b := (abs_nonneg x).trans h
        have := float64_mem_wide_of hx.1 hx.2 (by linarith) hb (c := -d) (by linarith) hd
        exact abs_le.mpr this
      obtain ⟨hk1, hk2⟩ := DegToRad_mem
      have hk := DegToRad_pos_float64
      have h1 : |a / DegToRad| ≤ 24.07 := by
        rw [abs_div, abs_of_pos hk, div_le_iff₀ hk]
        have : (0.4201 : ℝ) ≤ 24.07 * 0.0174532925 := by norm_num
        nlinarith
      have h2 : |float64 (a / DegToRad)| ≤ 24.08 := abs_float64_wide_le h1 (by norm_num) (by norm_num)
      have h3 : |float64 (a / DegToRad) * DegToRad| ≤ 24.08 * 0.0174532926 :=
        abs_mul_le_mul h2 (by rw [abs_of_pos hk]; exact hk2)
      exact abs_float64_le h3 (by norm_num) (by norm_num)
    -- The inverse sine of a number up to `0.3994` in absolute value.
    have Asin_of_abs_le {p : ℝ} (hp : |p| ≤ 0.3994) :
        ∃ a : ℝ, math.Asin p = some a ∧ |a| ≤ 0.4201 := by
      obtain ⟨hp1, hp2⟩ := abs_le.mp hp
      have hpm : -1 ≤ p ∧ p ≤ 1 := ⟨by linarith, by linarith⟩
      have hpi := Real.pi_gt_d6
      have hs42 := (sin_mem_of_mem (by norm_num : (0 : ℝ) ≤ 0.42) le_rfl le_rfl (by norm_num)).1
      have hs : (0.3994 : ℝ) ≤ Real.sin 0.42 := by norm_num at hs42 ⊢; linarith
      have hm : (-(Real.pi / 2) ≤ (0.42 : ℝ)) ∧ ((0.42 : ℝ) ≤ Real.pi / 2) :=
        ⟨by linarith, by linarith⟩
      have ha1 : -0.42 ≤ Real.arcsin p := by
        rw [Real.le_arcsin_iff_sin_le ⟨by linarith, by linarith⟩ ⟨hpm.1, hpm.2⟩, Real.sin_neg]
        linarith
      have ha2 : Real.arcsin p ≤ 0.42 := by
        rw [Real.arcsin_le_iff_le_sin ⟨hpm.1, hpm.2⟩ ⟨hm.1, hm.2⟩]
        linarith
      refine ⟨float64 (Real.arcsin p), by simp [math.Asin, hpm.1, hpm.2], ?_⟩
      exact abs_float64_le (abs_le.mpr ⟨ha1, ha2⟩) (by norm_num) (by norm_num)
    -- The argument of `math.Asin` in `hourAngle` is at most `0.3994` in absolute
    -- value.
    have abs_Asin_arg_le (ecl : ℝ) :
        |float64
          (math.Sin (float64 (ecl * DegToRad)) *
            math.Sin (float64 (23.43713 * ((2.0 * math.Pi) / 360.0))))| ≤ 0.3994 := by
      -- The sine of the obliquity constant, `math.Sin(23.43713*DegToRad)`.
      have Sin_obliquity_mem :
          0.396 ≤ math.Sin (float64 (23.43713 * ((2.0 * math.Pi) / 360.0))) ∧
            math.Sin (float64 (23.43713 * ((2.0 * math.Pi) / 360.0))) ≤ 0.3993 := by
        have h := float64_mem (x := 23.43713 * ((2.0 * math.Pi) / 360.0)) (a := 0.409055)
          (b := 0.409056) (by unfold math.Pi; norm_num) (by unfold math.Pi; norm_num)
          (by norm_num) (by norm_num)
        have h1 : (0.40905 : ℝ) ≤ float64 (23.43713 * ((2.0 * math.Pi) / 360.0)) := by
          norm_num at h ⊢; linarith [h.1]
        have h2 : float64 (23.43713 * ((2.0 * math.Pi) / 360.0)) ≤ (0.40906 : ℝ) := by
          norm_num at h ⊢; linarith [h.2]
        have hs := sin_mem_of_mem (by norm_num) h1 h2 (by norm_num)
        have hf := float64_mem hs.1 hs.2 (by norm_num) (by norm_num)
        unfold math.Sin
        constructor <;> norm_num at hf ⊢ <;> linarith [hf.1, hf.2]
      obtain ⟨ho1, ho2⟩ := Sin_obliquity_mem
      have ho : |math.Sin (float64 (23.43713 * ((2.0 * math.Pi) / 360.0)))| ≤ 0.3993 :=
        abs_le.mpr ⟨by linarith, ho2⟩
      have hp := abs_mul_le_mul (abs_Sin_le_one (float64 (ecl * DegToRad))) ho
      exact abs_float64_le hp (by norm_num) (by norm_num)
    obtain ⟨a, ha, hb⟩ := Asin_of_abs_le (abs_Asin_arg_le ecl)
    exact ⟨a, ha, Cos_of_abs_le (abs_declination_le hb)⟩
  -- The quotient of a number of `[a, b]`, `b ≤ 0`, by a number of `[c, 1]`,
  -- `0 < c`.
  have div_mem_of_nonpos {x y a b c : ℝ} (hx1 : a ≤ x) (hx2 : x ≤ b) (hb : b ≤ 0)
      (hy1 : c ≤ y) (hy2 : y ≤ 1) (hc : 0 < c) : a / c ≤ x / y ∧ x / y ≤ b := by
    have hy : 0 < y := lt_of_lt_of_le hc hy1
    constructor
    · rw [div_le_div_iff₀ hc hy]
      nlinarith
    · rw [div_le_iff₀ hy]
      nlinarith
  have Cos_zero : math.Cos 0 = 1 := by
    unfold math.Cos; rw [Real.cos_zero, float64_one]
  obtain ⟨a, ha, hc1, hc2⟩ := Cos_declination_mem ecl
  simp only [hourAngleArg, hroot, ha, Option.bind_eq_bind, Option.some_bind, zero_mul,
    float64_zero, Sin_zero, Cos_zero, one_mul, sub_zero]
  generalize math.Sin (float64 (float64 (float64 (-0.83) +
      float64 (float64 (-2.076) * float64 (root / 60.0))) * DegToRad)) = S at hs1 hs2
  generalize math.Cos (float64 (float64 (a / DegToRad) * DegToRad)) = C at hc1 hc2
  obtain ⟨hn1, hn2⟩ := float64_mem hs1 hs2 (by linarith) (by linarith)
  have hd1 : (0.9115 : ℝ) ≤ float64 C :=
    (float64_mem_of hc1 hc2 (by norm_num) (by norm_num) (c := 0.9115) (d := 2)
      (by norm_num) (by norm_num)).1
  have hd2 : float64 C ≤ 1 := by
    have := float64_mono hc2
    rwa [float64_one] at this
  generalize float64 S = num at hn1 hn2
  generalize float64 C = den at hd1 hd2
  have hden : den ≠ 0 := by
    have : (0 : ℝ) < den := lt_of_lt_of_le (by norm_num) hd1
    exact this.ne'
  obtain ⟨hq1, hq2⟩ := div_mem_of_nonpos hn1 hn2 h2 hd1 hd2 (by norm_num)
  have hlow : (-4 : ℝ) ≤ (s1 - 1e-15) / 0.9115 := by
    rw [le_div_iff₀ (by norm_num)]
    norm_num at h1 ⊢
    linarith
  obtain ⟨hr1, hr2⟩ := float64_mem hq1 hq2 hlow (by linarith)
  refine ⟨float64 (num / den), by simp [quotient, hden], by linarith, by linarith⟩

theorem hourAngle_of_Acos_arg {altitude latitude ecl q : ℝ}
    (harg : hourAngleArg altitude latitude ecl = some q) (h1 : -1 ≤ q) (h2 : q ≤ 1) :
    hourAngle altitude latitude ecl = some (float64 (float64 (Real.arccos q) / DegToRad)) := by
  simp [hourAngle, harg, math.Acos, h1, h2]

/-- The hour angle in days, `hourAngle / 360.0`, from bounds of the inverse
cosine. -/
theorem hourAngUnit_mem {c a b lo hi : ℝ} (ha : a ≤ c) (hb : c ≤ b) (ha0 : 1 ≤ a) (hb4 : b ≤ 3.2)
    (hlo : lo ≤ ((a - 1e-15) / 0.0174532926 - 1e-13) / 360 - 1e-15)
    (hhi : ((b + 1e-15) / 0.0174532925 + 1e-13) / 360 + 1e-15 ≤ hi) :
    lo ≤ float64 (float64 (float64 c / DegToRad) / 360.0) ∧
      float64 (float64 (float64 c / DegToRad) / 360.0) ≤ hi := by
  -- The quotient of a number of `[a, b]`, `0 ≤ a`, by a number of `[c, d]`,
  -- `0 < c`.
  have div_mem_of_nonneg {x y a b c d : ℝ} (hx1 : a ≤ x) (hx2 : x ≤ b) (ha : 0 ≤ a)
      (hy1 : c ≤ y) (hy2 : y ≤ d) (hc : 0 < c) : a / d ≤ x / y ∧ x / y ≤ b / c := by
    have hy : 0 < y := lt_of_lt_of_le hc hy1
    have hd : 0 < d := lt_of_lt_of_le hy hy2
    constructor
    · rw [div_le_div_iff₀ hd hy]
      nlinarith
    · rw [div_le_div_iff₀ hy hc]
      nlinarith
  obtain ⟨hk1, hk2⟩ := DegToRad_mem
  obtain ⟨hc1, hc2⟩ := float64_mem ha hb (by linarith) (by linarith)
  generalize float64 c = r at hc1 hc2
  obtain ⟨hd1, hd2⟩ := div_mem_of_nonneg hc1 hc2 (by norm_num at ha0 ⊢; linarith) hk1 hk2
    (by norm_num)
  have hd3 : (0 : ℝ) ≤ (a - 1e-15) / 0.0174532926 :=
    div_nonneg (by norm_num at ha0 ⊢; linarith) (by norm_num)
  have hd4 : (b + 1e-15) / 0.0174532925 ≤ (256 : ℝ) := by
    rw [div_le_iff₀ (by norm_num)]
    norm_num at hb4 ⊢
    linarith
  obtain ⟨hH1, hH2⟩ := float64_mem_wide hd1 hd2 (by linarith) hd4
  generalize float64 (r / DegToRad) = H at hH1 hH2
  have hu1 : ((a - 1e-15) / 0.0174532926 - 1e-13) / 360 ≤ H / 360.0 := by
    have e : H / 360.0 = H / 360 := by norm_num
    rw [e]
    exact div_le_div_of_nonneg_right hH1 (by norm_num)
  have hu2 : H / 360.0 ≤ ((b + 1e-15) / 0.0174532925 + 1e-13) / 360 := by
    have e : H / 360.0 = H / 360 := by norm_num
    rw [e]
    exact div_le_div_of_nonneg_right hH2 (by norm_num)
  have hu3 : (-4 : ℝ) ≤ ((a - 1e-15) / 0.0174532926 - 1e-13) / 360 := by
    rw [le_div_iff₀ (by norm_num)]
    norm_num at hd3 ⊢
    linarith
  have hu4 : ((b + 1e-15) / 0.0174532925 + 1e-13) / 360 ≤ (4 : ℝ) := by
    rw [div_le_iff₀ (by norm_num)]
    norm_num at hd4 ⊢
    linarith
  exact float64_mem_of hu1 hu2 hu3 hu4 hlo hhi

/-- The hour angle at the equator and at altitude 0: the inverse-cosine
argument is in range and the hour angle is a little above a quarter of a day. -/
theorem hourAngle_equator_zero (ecl : ℝ) :
    ∃ q H : ℝ, hourAngleArg 0 0 ecl = some q ∧ -1 ≤ q ∧ q ≤ 1 ∧
      hourAngle 0 0 ecl = some H ∧
      0.2523 ≤ float64 (H / 360.0) ∧ float64 (H / 360.0) ≤ 0.2526 := by
  -- The inverse cosine of the argument found at the equator and at altitude
  -- 0.
  have arccos_equator_zero {q : ℝ} (h1 : -0.0159 ≤ q) (h2 : q ≤ -0.01448) :
      1.585276 ≤ Real.arccos q ∧ Real.arccos q ≤ 1.586797 := by
    have hp1 := Real.pi_gt_d6
    have hp2 := Real.pi_lt_d6
    have hq : -1 ≤ q ∧ q ≤ 1 := ⟨by norm_num at h1 ⊢; linarith, by norm_num at h2 ⊢; linarith⟩
    have hs := (sin_mem_of_mem (by norm_num : (0 : ℝ) ≤ 0.016) le_rfl le_rfl (by norm_num)).1
    have hs2 : Real.sin 0.01448 ≤ 0.01448 := Real.sin_le (by norm_num)
    have ha : -0.016 ≤ Real.arcsin q := by
      rw [Real.le_arcsin_iff_sin_le ⟨by norm_num at hp1 ⊢; linarith, by norm_num at hp1 ⊢; linarith⟩
        ⟨hq.1, hq.2⟩, Real.sin_neg]
      norm_num at hs h1 ⊢
      linarith
    have hb : Real.arcsin q ≤ -0.01448 := by
      rw [Real.arcsin_le_iff_le_sin ⟨hq.1, hq.2⟩
        ⟨by norm_num at hp1 ⊢; linarith, by norm_num at hp1 ⊢; linarith⟩, Real.sin_neg]
      linarith
    rw [Real.arccos_eq_pi_div_two_sub_arcsin]
    constructor <;> norm_num at ha hb hp1 hp2 ⊢ <;> linarith
  -- The argument of `math.Acos` at the equator and at altitude 0.
  have hourAngleArg_equator_zero (ecl : ℝ) :
      ∃ q : ℝ, hourAngleArg 0 0 ecl = some q ∧ -0.0159 ≤ q ∧ q ≤ -0.01448 := by
    -- The sine of the horizon angle at altitude 0.
    have Sin_horizon_zero_mem :
        -0.014486 ≤
            math.Sin (float64 (float64 (float64 (-0.83) +
              float64 (float64 (-2.076) * float64 ((0 : ℝ) / 60.0))) * DegToRad)) ∧
          math.Sin (float64 (float64 (float64 (-0.83) +
              float64 (float64 (-2.076) * float64 ((0 : ℝ) / 60.0))) * DegToRad)) ≤ -0.014485 := by
      obtain ⟨hk1, hk2⟩ := DegToRad_mem
      obtain ⟨hf1, hf2⟩ := float64_horizon_mem
      rw [zero_div, float64_zero, mul_zero, float64_zero, add_zero]
      obtain ⟨hh1, hh2⟩ := float64_mem_of hf1 hf2 (by norm_num) (by norm_num)
        (c := -0.8300002) (d := -0.8299998) (by norm_num) (by norm_num)
      generalize float64 (float64 (-0.83)) = h at hh1 hh2
      obtain ⟨hm1, hm2⟩ := mul_mem_of_nonpos hh1 hh2 (by norm_num) hk1 hk2 (by norm_num)
      obtain ⟨hr1, hr2⟩ := float64_mem_of hm1 hm2 (by norm_num) (by norm_num)
        (c := -0.0144863) (d := -0.0144862) (by norm_num) (by norm_num)
      exact Sin_neg_mem (u := 0.0144862) (v := 0.0144863) (by norm_num) (by linarith)
        (by linarith) (by norm_num) (by norm_num) (by norm_num)
    have Sqrt_zero : math.Sqrt 0 = some 0 := by
      simp [math.Sqrt, float64_zero]
    exact hourAngleArg_equator_mem ecl Sqrt_zero Sin_horizon_zero_mem.1 Sin_horizon_zero_mem.2
      (by norm_num) (by norm_num) (by norm_num) (by norm_num)
  obtain ⟨q, hq, h1, h2⟩ := hourAngleArg_equator_zero ecl
  have h1' : -1 ≤ q := by norm_num at h1 ⊢; linarith
  have h2' : q ≤ 1 := by norm_num at h2 ⊢; linarith
  obtain ⟨ha, hb⟩ := arccos_equator_zero h1 h2
  exact ⟨q, _, hq, h1', h2', hourAngle_of_Acos_arg hq h1' h2',
    hourAngUnit_mem ha hb (by norm_num) (by norm_num) (by norm_num) (by norm_num)⟩

/-- A number within `d` of a `float64` `N` of the binade `[2^k, 2^(k+1))`,
where `d` is below half a unit in the last place, rounds to `N`. -/
theorem float64_add_absorb {N e d : ℝ} (k j : ℤ) (hk : -1022 ≤ k)
    (hN : N = (j : ℝ) * (2 : ℝ) ^ (k - 52))
    (h1 : (2 : ℝ) ^ k ≤ N - d) (h2 : N + d < (2 : ℝ) ^ (k + 1))
    (hd : d < (2 : ℝ) ^ (k - 53)) (he : |e| ≤ d) : float64 (N + e) = N := by
  obtain ⟨e1, e2⟩ := abs_le.mp he
  have hpos : 0 < N + e := lt_of_lt_of_le (by positivity) (h1.trans (by linarith))
  have hp : (0 : ℝ) < (2 : ℝ) ^ (k - 52) := by positivity
  have hnear : |(N + e) / (2 : ℝ) ^ (k - 52) - j| < 1 / 2 := by
    have e3 : (N + e) / (2 : ℝ) ^ (k - 52) - j = e / (2 : ℝ) ^ (k - 52) := by
      rw [hN]; field_simp; ring
    have e4 : (2 : ℝ) ^ (k - 53) = (2 : ℝ) ^ (k - 52) / 2 := by
      rw [show k - 53 = k - 52 - 1 by ring, zpow_sub_one₀ (by norm_num)]; ring
    rw [e3, abs_div, abs_of_pos hp, div_lt_iff₀ hp]
    rw [e4] at hd
    linarith
  rw [float64_eq_of_near k j hk (by rw [abs_of_pos hpos]; linarith)
    (by rw [abs_of_pos hpos]; linarith) hnear, hN]

/-- The result of `Times` at longitude 0 for a date so large that the mean solar
noon absorbs the small terms. -/
theorem Times_of_absorb (date : ℤ) (latitude altitude : ℝ) {N : ℝ}
    (hN : float64 (float64 (date : ℝ) - Jan1200012pm) = N)
    (habs : ∀ e : ℝ, |e| ≤ 0.01 → float64 (N + e) = N) :
    ∃ ecl : ℝ, timesAcosArg date 0 latitude altitude = hourAngleArg altitude latitude ecl ∧
      ∀ H : ℝ, hourAngle altitude latitude ecl = some H →
        Times date 0 latitude altitude =
          (some (float64 (2451545 + float64 (N - float64 (H / 360.0)))),
            some (float64 (2451545 + float64 (N + float64 (H / 360.0))))) := by
  -- When the mean solar noon `N` is so large that a term up to `0.01` is lost
  -- in the rounding of a sum, the solar transit is `N` itself.
  have julRiseAndSet_of_absorb {N : ℝ} (m l H : ℝ)
      (habs : ∀ e : ℝ, |e| ≤ 0.01 → float64 (N + e) = N) :
      julRiseAndSet N m l (some H) =
        (some (float64 (2451545 + float64 (N - float64 (H / 360.0)))),
          some (float64 (2451545 + float64 (N + float64 (H / 360.0))))) := by
    have abs_float64_mul_Sin_le {c : ℝ} (x : ℝ) (hc : |c| ≤ 0.008) :
        |float64 (float64 c * math.Sin x)| ≤ 0.01 := by
      have h1 : |float64 c| ≤ 0.009 := abs_float64_le hc (by norm_num) (by norm_num)
      have h2 := abs_mul_le_mul h1 (abs_Sin_le_one x)
      exact abs_float64_le h2 (by norm_num) (by norm_num)
    have hA := habs _ (abs_float64_mul_Sin_le (c := 0.0053) (float64 (m * DegToRad))
      (by norm_num [abs_of_pos]))
    have hB := habs (-float64 (float64 0.0069 *
        math.Sin (float64 (float64 (2.0 * l) * DegToRad)))) (by
      rw [abs_neg]
      exact abs_float64_mul_Sin_le (c := 0.0069) _ (by norm_num [abs_of_pos]))
    rw [← sub_eq_add_neg] at hB
    have hJ : Jan1200012pm = 2451545 := by unfold Jan1200012pm; norm_num
    simp only [julRiseAndSet, Option.bind_eq_bind, Option.some_bind, Option.pure_def, hA, hB, hJ]
  have hjd : float64 (float64 (float64 (date : ℝ) - Jan1200012pm) + float64 0.0008) = N := by
    rw [hN]
    exact habs _ (abs_float64_le (b := 0.0008) (by norm_num [abs_of_pos]) (by norm_num)
      (by norm_num))
  have hfix : float64 N = N := by
    have := habs 0 (by norm_num)
    rwa [add_zero] at this
  have hn : meanSolarNoon N 0 = N := by
    unfold meanSolarNoon
    rw [zero_div, float64_zero, zero_add, hfix]
  refine ⟨eclipticLongitude (meanSolarAnomaly N), ?_, ?_⟩
  · unfold timesAcosArg
    rw [hjd, hn]
  · intro H hH
    simp only [Times, hjd, hn, hH]
    exact julRiseAndSet_of_absorb _ _ H habs

/-- Rounding in the binade `[2^k, 2^(k+1))` of the positive numbers. -/
theorem float64_eq_of_pos_near {x : ℝ} (k j : ℤ) (hk : -1022 ≤ k) (h1 : (2 : ℝ) ^ k ≤ x)
    (h2 : x < (2 : ℝ) ^ (k + 1)) (h : x / (2 : ℝ) ^ (k - 52) = j) :
    float64 x = (j : ℝ) * (2 : ℝ) ^ (k - 52) := by
  have hpos : 0 < x := lt_of_lt_of_le (by positivity) h1
  exact float64_eq_of_near k j hk (by rwa [abs_of_pos hpos]) (by rwa [abs_of_pos hpos])
    (by rw [h]; norm_num)

/-- Rounding of a tie in the binade `[2^k, 2^(k+1))` of the positive numbers. -/
theorem float64_of_pos_tie {x : ℝ} (k j : ℤ) (hk : -1022 ≤ k) (h1 : (2 : ℝ) ^ k ≤ x)
    (h2 : x < (2 : ℝ) ^ (k + 1)) (h : x / (2 : ℝ) ^ (k - 52) = (j : ℝ) + 1 / 2) :
    float64 x = ((if Even j then j else j + 1 : ℤ) : ℝ) * (2 : ℝ) ^ (k - 52) := by
  have float64_of_tie {x : ℝ} (k j : ℤ) (hk : -1022 ≤ k) (h1 : (2 : ℝ) ^ k ≤ |x|)
      (h2 : |x| < (2 : ℝ) ^ (k + 1)) (h : x / (2 : ℝ) ^ (k - 52) = (j : ℝ) + 1 / 2) :
      float64 x = ((if Even j then j else j + 1 : ℤ) : ℝ) * (2 : ℝ) ^ (k - 52) := by
    have roundEven_tie (j : ℤ) : roundEven ((j : ℝ) + 1 / 2) = if Even j then j else j + 1 := by
      have hfl : ⌊(j : ℝ) + 1 / 2⌋ = j := by
        rw [Int.floor_eq_iff]; constructor <;> norm_num
      have hfr : Int.fract ((j : ℝ) + 1 / 2) = 1 / 2 := by
        rw [Int.fract, hfl]; ring
      unfold roundEven
      rw [hfr, hfl]
      simp
    unfold float64
    rw [ulpExp_of_mem k hk h1 h2, h, roundEven_tie]
  have hpos : 0 < x := lt_of_lt_of_le (by positivity) h1
  exact float64_of_tie k j hk (by rwa [abs_of_pos hpos]) (by rwa [abs_of_pos hpos]) h

/-- The mean solar noon of date `2^51` at longitude 0, `2^51 - 2451545`, with
a last place of `1/4`. -/
theorem meanSolNoon_two_pow_51 :
    float64 (float64 ((2251799813685248 : ℤ) : ℝ) - Jan1200012pm) = 2251799811233703 ∧
      ∀ e : ℝ, |e| ≤ 0.01 → float64 (2251799811233703 + e) = 2251799811233703 := by
  have h1 : float64 ((2251799813685248 : ℤ) : ℝ) = 2251799813685248 := by
    rw [float64_eq_of_pos_near 51 4503599627370496 (by norm_num) (by norm_num) (by norm_num)
      (by norm_num)]
    norm_num
  have h2 : float64 ((2251799813685248 : ℝ) - Jan1200012pm) = 2251799811233703 := by
    unfold Jan1200012pm
    rw [float64_eq_of_pos_near 50 9007199244934812 (by norm_num) (by norm_num) (by norm_num)
      (by norm_num)]
    norm_num
  refine ⟨by rw [h1, h2], fun e he => ?_⟩
  exact float64_add_absorb 50 9007199244934812 (by norm_num) (by norm_num) (by norm_num)
    (by norm_num) (by norm_num) he

/-- The result of `Times` for date `2^51` at longitude 0, latitude 0 and
altitude 0. -/
theorem Times_two_pow_51_zero :
    (∃ q : ℝ, timesAcosArg 2251799813685248 0 0 0 = some q ∧ -1 ≤ q ∧ q ≤ 1) ∧
      Times 2251799813685248 0 0 0 = (some 2251799813685247.75, some 2251799813685248) := by
  -- Sunrise and sunset of date `2^51` for an hour angle between `0.13` and
  -- `0.37` of a day.
  have rise_set_two_pow_51_low {u : ℝ} (h1 : 0.2523 ≤ u) (h2 : u ≤ 0.2526) :
      float64 (2451545 + float64 (2251799811233703 - u)) = 2251799813685247.75 ∧
        float64 (2451545 + float64 (2251799811233703 + u)) = 2251799813685248 := by
    have e1 : (2251799811233703 : ℝ) - u = 2251799811233702.75 + (1 / 4 - u) := by ring
    have e2 : (2251799811233703 : ℝ) + u = 2251799811233703.25 + (u - 1 / 4) := by ring
    have hr : float64 (2251799811233703 - u) = 2251799811233702.75 := by
      rw [e1]
      exact float64_add_absorb (d := 0.01) 50 9007199244934811 (by norm_num) (by norm_num)
        (by norm_num) (by norm_num) (by norm_num)
        (abs_le.mpr ⟨by norm_num at h2 ⊢; linarith, by norm_num at h1 ⊢; linarith⟩)
    have hs : float64 (2251799811233703 + u) = 2251799811233703.25 := by
      rw [e2]
      exact float64_add_absorb (d := 0.01) 50 9007199244934813 (by norm_num) (by norm_num)
        (by norm_num) (by norm_num) (by norm_num)
        (abs_le.mpr ⟨by norm_num at h1 ⊢; linarith, by norm_num at h2 ⊢; linarith⟩)
    rw [hr, hs]
    constructor
    · rw [float64_eq_of_pos_near 50 9007199254740991 (by norm_num) (by norm_num) (by norm_num)
        (by norm_num)]
      norm_num
    · rw [float64_of_pos_tie 51 4503599627370496 (by norm_num) (by norm_num) (by norm_num)
        (by norm_num)]
      rw [if_pos (by decide)]
      norm_num
  obtain ⟨ecl, harg, hT⟩ := Times_of_absorb 2251799813685248 0 0 meanSolNoon_two_pow_51.1
    meanSolNoon_two_pow_51.2
  obtain ⟨q, H, hq, h1, h2, hH, hu1, hu2⟩ := hourAngle_equator_zero ecl
  refine ⟨⟨q, harg.trans hq, h1, h2⟩, ?_⟩
  rw [hT H hH, (rise_set_two_pow_51_low hu1 hu2).1, (rise_set_two_pow_51_low hu1 hu2).2]

/-- The result of `Times` for date `2^52 + 1` at longitude 0, latitude 0 and
altitude 0. -/
theorem Times_two_pow_52 :
    (∃ q : ℝ, timesAcosArg 4503599627370497 0 0 0 = some q ∧ -1 ≤ q ∧ q ≤ 1) ∧
      Times 4503599627370497 0 0 0 = (some 4503599627370496, some 4503599627370498) := by
  -- Sunrise and sunset of date `2^52 + 1` for an hour angle a little above a
  -- quarter of a day.
  have rise_set_two_pow_52 {u : ℝ} (h1 : 0.2523 ≤ u) (h2 : u ≤ 0.2526) :
      float64 (2451545 + float64 (4503599624918952 - u)) = 4503599627370496 ∧
        float64 (2451545 + float64 (4503599624918952 + u)) = 4503599627370498 := by
    have e1 : (4503599624918952 : ℝ) - u = 4503599624918951.5 + (1 / 2 - u) := by ring
    have e2 : (4503599624918952 : ℝ) + u = 4503599624918952.5 + (u - 1 / 2) := by ring
    have hr : float64 (4503599624918952 - u) = 4503599624918951.5 := by
      rw [e1]
      exact float64_add_absorb (d := 0.2477) 51 9007199249837903 (by norm_num) (by norm_num)
        (by norm_num) (by norm_num) (by norm_num)
        (abs_le.mpr ⟨by norm_num at h2 ⊢; linarith, by norm_num at h1 ⊢; linarith⟩)
    have hs : float64 (4503599624918952 + u) = 4503599624918952.5 := by
      rw [e2]
      exact float64_add_absorb (d := 0.2477) 51 9007199249837905 (by norm_num) (by norm_num)
        (by norm_num) (by norm_num) (by norm_num)
        (abs_le.mpr ⟨by norm_num at h1 ⊢; linarith, by norm_num at h2 ⊢; linarith⟩)
    rw [hr, hs]
    constructor
    · rw [float64_of_pos_tie 52 4503599627370496 (by norm_num) (by norm_num) (by norm_num)
        (by norm_num)]
      rw [if_pos (by decide)]
      norm_num
    · rw [float64_of_pos_tie 52 4503599627370497 (by norm_num) (by norm_num) (by norm_num)
        (by norm_num)]
      rw [if_neg (by decide)]
      norm_num
  -- The mean solar noon of date `2^52 + 1` at longitude 0, with a last place of
  -- `1/2`.
  have meanSolNoon_two_pow_52 :
      float64 (float64 ((4503599627370497 : ℤ) : ℝ) - Jan1200012pm) = 4503599624918952 ∧
        ∀ e : ℝ, |e| ≤ 0.01 → float64 (4503599624918952 + e) = 4503599624918952 := by
    have h1 : float64 ((4503599627370497 : ℤ) : ℝ) = 4503599627370497 := by
      rw [float64_eq_of_pos_near 52 4503599627370497 (by norm_num) (by norm_num) (by norm_num)
        (by norm_num)]
      norm_num
    have h2 : float64 ((4503599627370497 : ℝ) - Jan1200012pm) = 4503599624918952 := by
      unfold Jan1200012pm
      rw [float64_eq_of_pos_near 51 9007199249837904 (by norm_num) (by norm_num) (by norm_num)
        (by norm_num)]
      norm_num
    refine ⟨by rw [h1, h2], fun e he => ?_⟩
    exact float64_add_absorb 51 9007199249837904 (by norm_num) (by norm_num) (by norm_num)
      (by norm_num) (by norm_num) he
  obtain ⟨ecl, harg, hT⟩ := Times_of_absorb 4503599627370497 0 0 meanSolNoon_two_pow_52.1
    meanSolNoon_two_pow_52.2
  obtain ⟨q, H, hq, h1, h2, hH, hu1, hu2⟩ := hourAngle_equator_zero ecl
  refine ⟨⟨q, harg.trans hq, h1, h2⟩, ?_⟩
  rw [hT H hH, (rise_set_two_pow_52 hu1 hu2).1, (rise_set_two_pow_52 hu1 hu2).2]

/-- The result of `Times` for date `2^53 + 1` at longitude 0, latitude 0 and
altitude 0. -/
theorem Times_two_pow_53 :
    (∃ q : ℝ, timesAcosArg 9007199254740993 0 0 0 = some q ∧ -1 ≤ q ∧ q ≤ 1) ∧
      Times 9007199254740993 0 0 0 = (some 9007199254740992, some 9007199254740992) := by
  -- The mean solar noon of date `2^53 + 1` at longitude 0: the date itself is
  -- rounded to `2^53`, and the last place of the mean solar noon is 1.
  have meanSolNoon_two_pow_53 :
      float64 (float64 ((9007199254740993 : ℤ) : ℝ) - Jan1200012pm) = 9007199252289447 ∧
        ∀ e : ℝ, |e| ≤ 0.26 → float64 (9007199252289447 + e) = 9007199252289447 := by
    have h1 : float64 ((9007199254740993 : ℤ) : ℝ) = 9007199254740992 := by
      rw [float64_of_pos_tie 53 4503599627370496 (by norm_num) (by norm_num) (by norm_num)
        (by norm_num)]
      rw [if_pos (by decide)]
      norm_num
    have h2 : float64 ((9007199254740992 : ℝ) - Jan1200012pm) = 9007199252289447 := by
      unfold Jan1200012pm
      rw [float64_eq_of_pos_near 52 9007199252289447 (by norm_num) (by norm_num) (by norm_num)
        (by norm_num)]
      norm_num
    refine ⟨by rw [h1, h2], fun e he => ?_⟩
    exact float64_add_absorb 52 9007199252289447 (by norm_num) (by norm_num) (by norm_num)
      (by norm_num) (by norm_num) he
  -- Sunrise and sunset of date `2^53 + 1` for an hour angle a little above a
  -- quarter of a day.
  have rise_set_two_pow_53 {u : ℝ} (h1 : 0.2523 ≤ u) (h2 : u ≤ 0.2526) :
      float64 (2451545 + float64 (9007199252289447 - u)) = 9007199254740992 ∧
        float64 (2451545 + float64 (9007199252289447 + u)) = 9007199254740992 := by
    have hr : float64 (9007199252289447 - u) = 9007199252289447 := by
      rw [sub_eq_add_neg]
      exact meanSolNoon_two_pow_53.2 _
        (by rw [abs_neg]; exact abs_le.mpr ⟨by norm_num at h1 ⊢; linarith,
          by norm_num at h2 ⊢; linarith⟩)
    have hs : float64 (9007199252289447 + u) = 9007199252289447 :=
      meanSolNoon_two_pow_53.2 _
        (abs_le.mpr ⟨by norm_num at h1 ⊢; linarith, by norm_num at h2 ⊢; linarith⟩)
    rw [hr, hs]
    have h : float64 ((2451545 : ℝ) + 9007199252289447) = 9007199254740992 := by
      rw [float64_eq_of_pos_near 53 4503599627370496 (by norm_num) (by norm_num) (by norm_num)
        (by norm_num)]
      norm_num
    exact ⟨h, h⟩
  obtain ⟨ecl, harg, hT⟩ := Times_of_absorb 9007199254740993 0 0 meanSolNoon_two_pow_53.1
    (fun e he => meanSolNoon_two_pow_53.2 e (he.trans (by norm_num)))
  obtain ⟨q, H, hq, h1, h2, hH, hu1, hu2⟩ := hourAngle_equator_zero ecl
  refine ⟨⟨q, harg.trans hq, h1, h2⟩, ?_⟩
  rw [hT H hH, (rise_set_two_pow_53 hu1 hu2).1, (rise_set_two_pow_53 hu1 hu2).2]

/-- A finite hour angle lies in `[0, 180]` degrees. -/
theorem hourAngle_mem {altitude latitude ecl H : ℝ}
    (h : hourAngle altitude latitude ecl = some H) : 0 ≤ H ∧ H ≤ 180 := by
  -- Half a turn: `float64 π / DegToRad` rounds to `180`.
  have float64_pi_div_DegToRad : float64 (float64 Real.pi / DegToRad) = 180 := by
    -- Rounding of a positive number that lies within half a unit in the last
    -- place of `j` units.
    have float64_eq_of_pos_mem {x : ℝ} (k j : ℤ) (hk : -1022 ≤ k) (h1 : (2 : ℝ) ^ k ≤ x)
        (h2 : x < (2 : ℝ) ^ (k + 1)) (h3 : (j : ℝ) - 1 / 2 < x / (2 : ℝ) ^ (k - 52))
        (h4 : x / (2 : ℝ) ^ (k - 52) < (j : ℝ) + 1 / 2) :
        float64 x = (j : ℝ) * (2 : ℝ) ^ (k - 52) := by
      have hpos : 0 < x := lt_of_lt_of_le (by positivity) h1
      exact float64_eq_of_near k j hk (by rwa [abs_of_pos hpos]) (by rwa [abs_of_pos hpos])
        (abs_lt.mpr ⟨by linarith, by linarith⟩)
    -- The `float64` nearest to `π`, `0x1.921fb54442d18p+1`.
    have float64_pi : float64 Real.pi = 7074237752028440 * (2 : ℝ) ^ (-51 : ℤ) := by
      have hp1 := Real.pi_gt_d20
      have hp2 := Real.pi_lt_d20
      rw [float64_eq_of_pos_mem 1 7074237752028440 (by norm_num) (by norm_num at hp1 ⊢; linarith)
        (by norm_num at hp2 ⊢; linarith) (by norm_num at hp1 ⊢; linarith)
        (by norm_num at hp2 ⊢; linarith)]
      norm_num
    -- The `float64` value of `DegToRad`, `0x1.1df46a2529d39p-6`.
    have DegToRad_eq_mul_zpow : DegToRad = 5030569068109113 * (2 : ℝ) ^ (-58 : ℤ) := by
      unfold DegToRad math.Pi
      rw [float64_eq_of_pos_mem (-6) 5030569068109113 (by norm_num) (by norm_num) (by norm_num)
        (by norm_num) (by norm_num)]
      norm_num
    rw [float64_pi, DegToRad_eq_mul_zpow]
    rw [float64_eq_of_pos_mem 7 6333186975989760 (by norm_num) (by norm_num) (by norm_num)
      (by norm_num) (by norm_num)]
    norm_num
  have hk := DegToRad_pos_float64
  unfold hourAngle at h
  cases hq : hourAngleArg altitude latitude ecl with
  | none => simp [hq] at h
  | some q =>
    by_cases hm : -1 ≤ q ∧ q ≤ 1
    · simp [hq, math.Acos, hm] at h
      rw [← h]
      constructor
      · exact float64_nonneg (div_nonneg (float64_nonneg (Real.arccos_nonneg q)) hk.le)
      · have h1 : float64 (Real.arccos q) ≤ float64 Real.pi :=
          float64_mono (Real.arccos_le_pi q)
        have h2 := float64_mono (div_le_div_of_nonneg_right h1 hk.le)
        rwa [float64_pi_div_DegToRad] at h2
    · simp [hq, math.Acos, hm] at h

/-- The hour angle in days lies in `[0, 0.5]`. -/
theorem hourAngUnit_mem_of_mem {H : ℝ} (h0 : 0 ≤ H) (h1 : H ≤ 180) :
    0 ≤ float64 (H / 360.0) ∧ float64 (H / 360.0) ≤ 0.5 := by
  have float64_half : float64 0.5 = 0.5 := by
    rw [float64_eq_of_pos_near (-1) 4503599627370496 (by norm_num) (by norm_num) (by norm_num)
      (by norm_num)]
    norm_num
  constructor
  · exact float64_nonneg (by positivity)
  · have h2 : H / 360.0 ≤ 0.5 := by
      rw [div_le_iff₀ (by norm_num)]
      norm_num
      linarith
    have := float64_mono h2
    rwa [float64_half] at this

/-- For a nonnegative hour angle the sunrise is not after the sunset. -/
theorem julRiseAndSet_le (n m l : ℝ) {H : ℝ} (h0 : 0 ≤ H) :
    ∃ rise set : ℝ, julRiseAndSet n m l (some H) = (some rise, some set) ∧ rise ≤ set := by
  have hu : 0 ≤ float64 (H / 360.0) := float64_nonneg (by positivity)
  refine ⟨_, _, rfl, ?_⟩
  apply float64_mono
  have := float64_mono (x := float64 (float64 (n + float64 (float64 0.0053 *
      math.Sin (float64 (m * DegToRad)))) - float64 (float64 0.0069 *
      math.Sin (float64 (float64 (2.0 * l) * DegToRad)))) - float64 (H / 360.0))
    (y := float64 (float64 (n + float64 (float64 0.0053 *
      math.Sin (float64 (m * DegToRad)))) - float64 (float64 0.0069 *
      math.Sin (float64 (float64 (2.0 * l) * DegToRad)))) + float64 (H / 360.0))
    (by linarith)
  linarith

theorem julRiseAndSet_eq (n m l H : ℝ) :
    julRiseAndSet n m l (some H) =
      (some (float64 (2451545 + float64 (solTransit n m l - float64 (H / 360.0)))),
        some (float64 (2451545 + float64 (solTransit n m l + float64 (H / 360.0))))) := by
  have hJ : Jan1200012pm = 2451545 := by unfold Jan1200012pm; norm_num
  simp only [julRiseAndSet, solTransit, Option.bind_eq_bind, Option.some_bind, Option.pure_def,
    hJ]

theorem Times_eq_julRiseAndSet (date : ℤ) (longitude latitude altitude : ℝ) :
    Times date longitude latitude altitude =
      julRiseAndSet
        (meanSolarNoon
          (float64 (float64 (float64 (date : ℝ) - Jan1200012pm) + float64 0.0008)) longitude)
        (meanSolarAnomaly (meanSolarNoon
          (float64 (float64 (float64 (date : ℝ) - Jan1200012pm) + float64 0.0008)) longitude))
        (timesEclipticLongitude date longitude)
        (hourAngle altitude latitude (timesEclipticLongitude date longitude)) := rfl

theorem timesAcosArg_eq (date : ℤ) (longitude latitude altitude : ℝ) :
    timesAcosArg date longitude latitude altitude =
      hourAngleArg altitude latitude (timesEclipticLongitude date longitude) := rfl

/-- The result of `Times` for a date and a longitude up to `10^9` in absolute
value: the solar transit is within `0.01224` day of the exact mean solar noon,
and the sunrise and the sunset are within `1/125000` day of the transit minus
and plus the hour angle in days. -/
theorem Times_approx (date : ℤ) {longitude : ℝ} (latitude altitude : ℝ)
    (hd : |(date : ℝ)| ≤ 1000000000) (hl : |longitude| ≤ 1000000000) :
    ∃ T : ℝ,
      |T - (longitude / 360 + (((date : ℝ) - 2451545) + 0.0008))| ≤ 1224 / 100000 ∧
      ∀ H : ℝ, hourAngle altitude latitude (timesEclipticLongitude date longitude) = some H →
        ∃ rise set : ℝ, Times date longitude latitude altitude = (some rise, some set) ∧
          |rise - (2451545 + (T - float64 (H / 360.0)))| ≤ 1 / 125000 ∧
          |set - (2451545 + (T + float64 (H / 360.0)))| ≤ 1 / 125000 := by
  -- Below `2^34` in absolute value rounding moves a number by less than
  -- `1/250000`.
  have float64_err {x : ℝ} (h : |x| ≤ 17179869184) :
      x - 1 / 250000 ≤ float64 x ∧ float64 x ≤ x + 1 / 250000 := by
    have h1 := abs_le.mp (abs_float64_sub_le_of_le h (by norm_num))
    norm_num at h1
    constructor <;> linarith [h1.1, h1.2]
  -- For a date and a longitude up to `10^9` in absolute value the mean solar
  -- noon is within `21/1000000` day of its exact value.
  have meanSolarNoon_approx (date : ℤ) {longitude : ℝ} (hd : |(date : ℝ)| ≤ 1000000000)
      (hl : |longitude| ≤ 1000000000) :
      |meanSolarNoon (float64 (float64 (float64 (date : ℝ) - Jan1200012pm) + float64 0.0008))
          longitude - (longitude / 360 + (((date : ℝ) - 2451545) + 0.0008))| ≤ 21 / 1000000 ∧
        |meanSolarNoon (float64 (float64 (float64 (date : ℝ) - Jan1200012pm) + float64 0.0008))
          longitude| ≤ 2000000000 := by
    obtain ⟨d1, d2⟩ := abs_le.mp hd
    obtain ⟨l1, l2⟩ := abs_le.mp hl
    have hJ : Jan1200012pm = 2451545 := by unfold Jan1200012pm; norm_num
    have e360 : longitude / 360.0 = longitude / 360 := by norm_num
    have e8 : (0.0008 : ℝ) = 1 / 1250 := by norm_num
    obtain ⟨c1, c2⟩ := float64_mem_of (x := 1 / 1250) (a := 1 / 1250) (b := 1 / 1250) le_rfl le_rfl
      (by norm_num) (by norm_num) (c := 1 / 1250 - 1 / 1000000000)
      (d := 1 / 1250 + 1 / 1000000000) (by norm_num) (by norm_num)
    unfold meanSolarNoon
    rw [hJ, e360, e8]
    have hw : longitude = 360 * (longitude / 360) := by ring
    generalize longitude / 360 = w at hw
    generalize (date : ℝ) = D at d1 d2
    generalize float64 (1 / 1250) = c at c1 c2
    obtain ⟨x1, x2⟩ := float64_err (x := D) (abs_le.mpr ⟨by linarith, by linarith⟩)
    generalize float64 D = x at x1 x2
    obtain ⟨y1, y2⟩ := float64_err (x := x - 2451545) (abs_le.mpr ⟨by linarith, by linarith⟩)
    generalize float64 (x - 2451545) = y at y1 y2
    obtain ⟨j1, j2⟩ := float64_err (x := y + c) (abs_le.mpr ⟨by linarith, by linarith⟩)
    generalize float64 (y + c) = jd at j1 j2
    obtain ⟨q1, q2⟩ := float64_err (x := w) (abs_le.mpr ⟨by linarith, by linarith⟩)
    generalize float64 w = q at q1 q2
    obtain ⟨n1, n2⟩ := float64_err (x := q + jd) (abs_le.mpr ⟨by linarith, by linarith⟩)
    generalize float64 (q + jd) = n at n1 n2
    constructor <;> rw [abs_le] <;> constructor <;> linarith
  -- The solar transit stays within `0.01221` day of the mean solar noon.
  have solTransit_approx {n : ℝ} (m l : ℝ) (hn : |n| ≤ 2000000000) :
      |solTransit n m l - n| ≤ 1221 / 100000 ∧ |solTransit n m l| ≤ 2000000001 := by
    have abs_float64_mul_Sin_le_of {c b : ℝ} (x : ℝ) (hc : |c| ≤ b) (hb : b ≤ 1) :
        |float64 (float64 c * math.Sin x)| ≤ b + 1 / 100000000 := by
      have h1 : |float64 c| ≤ b + 1 / 1000000000 :=
        abs_float64_le hc (by linarith) (by norm_num)
      have h2 := abs_mul_le_mul h1 (abs_Sin_le_one x)
      exact abs_float64_le h2 (by linarith) (by norm_num; linarith)
    obtain ⟨n1, n2⟩ := abs_le.mp hn
    obtain ⟨a1, a2⟩ := abs_le.mp (abs_float64_mul_Sin_le_of (c := 0.0053) (b := 53 / 10000)
      (float64 (m * DegToRad)) (by norm_num [abs_of_pos]) (by norm_num))
    obtain ⟨b1, b2⟩ := abs_le.mp (abs_float64_mul_Sin_le_of (c := 0.0069) (b := 69 / 10000)
      (float64 (float64 (2.0 * l) * DegToRad)) (by norm_num [abs_of_pos]) (by norm_num))
    unfold solTransit
    generalize float64 (float64 0.0053 * math.Sin (float64 (m * DegToRad))) = A at a1 a2
    generalize float64 (float64 0.0069 * math.Sin (float64 (float64 (2.0 * l) * DegToRad))) = B
      at b1 b2
    obtain ⟨t1, t2⟩ := float64_err (x := n + A) (abs_le.mpr ⟨by linarith, by linarith⟩)
    generalize float64 (n + A) = t at t1 t2
    obtain ⟨s1, s2⟩ := float64_err (x := t - B) (abs_le.mpr ⟨by linarith, by linarith⟩)
    generalize float64 (t - B) = T at s1 s2
    constructor <;> rw [abs_le] <;> constructor <;> linarith
  -- For a mean solar noon up to `2 * 10^9` and an hour angle of `[0, 180]`
  -- degrees, the results of `julRiseAndSet` are within `1/125000` day of the
  -- solar transit minus and plus the hour angle in days.
  have julRiseAndSet_approx {n : ℝ} (m l : ℝ) {H : ℝ} (hn : |n| ≤ 2000000000)
      (h0 : 0 ≤ H) (h1 : H ≤ 180) :
      ∃ rise set : ℝ, julRiseAndSet n m l (some H) = (some rise, some set) ∧
        |rise - (2451545 + (solTransit n m l - float64 (H / 360.0)))| ≤ 1 / 125000 ∧
        |set - (2451545 + (solTransit n m l + float64 (H / 360.0)))| ≤ 1 / 125000 := by
    obtain ⟨u1, u2⟩ := hourAngUnit_mem_of_mem h0 h1
    obtain ⟨T1, T2⟩ := abs_le.mp (solTransit_approx m l hn).2
    refine ⟨_, _, julRiseAndSet_eq n m l H, ?_, ?_⟩
    · generalize solTransit n m l = T at T1 T2
      generalize float64 (H / 360.0) = u at u1 u2
      norm_num at u2
      obtain ⟨y1, y2⟩ := float64_err (x := T - u) (abs_le.mpr ⟨by linarith, by linarith⟩)
      generalize float64 (T - u) = y at y1 y2
      obtain ⟨r1, r2⟩ := float64_err (x := 2451545 + y) (abs_le.mpr ⟨by linarith, by linarith⟩)
      rw [abs_le]
      constructor <;> linarith
    · generalize solTransit n m l = T at T1 T2
      generalize float64 (H / 360.0) = u at u1 u2
      norm_num at u2
      obtain ⟨y1, y2⟩ := float64_err (x := T + u) (abs_le.mpr ⟨by linarith, by linarith⟩)
      generalize float64 (T + u) = y at y1 y2
      obtain ⟨r1, r2⟩ := float64_err (x := 2451545 + y) (abs_le.mpr ⟨by linarith, by linarith⟩)
      rw [abs_le]
      constructor <;> linarith
  obtain ⟨hn1, hn2⟩ := meanSolarNoon_approx date hd hl
  rw [Times_eq_julRiseAndSet]
  unfold timesEclipticLongitude
  generalize meanSolarNoon
      (float64 (float64 (float64 (date : ℝ) - Jan1200012pm) + float64 0.0008)) longitude = n
    at hn1 hn2
  have hT := (solTransit_approx (meanSolarAnomaly n) (eclipticLongitude (meanSolarAnomaly n))
    hn2).1
  refine ⟨solTransit n (meanSolarAnomaly n) (eclipticLongitude (meanSolarAnomaly n)), ?_, ?_⟩
  · have h1 := abs_le.mp hn1
    have h2 := abs_le.mp hT
    rw [abs_le]
    constructor <;> linarith [h1.1, h1.2, h2.1, h2.2]
  · intro H hH
    obtain ⟨h0, h1⟩ := hourAngle_mem hH
    obtain ⟨rise, set, hrs, hr, hs⟩ := julRiseAndSet_approx (meanSolarAnomaly n)
      (eclipticLongitude (meanSolarAnomaly n)) hn2 h0 h1
    exact ⟨rise, set, by rw [hH, hrs], hr, hs⟩

/-- At the equator and at altitude 0 the result of `Times` is finite. -/
theorem Times_equator_finite (date : ℤ) (longitude : ℝ) :
    ∃ sunrise sunset : ℝ, Times date longitude 0 0 = (some sunrise, some sunset) := by
  obtain ⟨q, H, -, -, -, hH, -, -⟩ := hourAngle_equator_zero (timesEclipticLongitude date longitude)
  exact ⟨_, _, by rw [Times_eq_julRiseAndSet, hH, julRiseAndSet_eq]⟩

end Binary64

/-! ## The claims -/

/-- C1, counterexample: in `float64` arithmetic, for date `2^53 + 1`, longitude
0, latitude 0 and altitude 0 the inverse-cosine argument lies in `[-1, 1]`, yet
`Times` returns a sunrise equal to the sunset, `2^53`: the date is rounded to
`2^53`, and the hour angle of a quarter of a day is lost in a sum whose last
place is 1. -/
theorem Times_sunrise_eq_sunset :
    (0 : ℝ) ≤ 0 ∧
      (∃ q : ℝ, Binary64.timesAcosArg 9007199254740993 0 0 0 = some q ∧ -1 ≤ q ∧ q ≤ 1) ∧
      Binary64.Times 9007199254740993 0 0 0 =
        (some 9007199254740992, some 9007199254740992) ∧
      ¬ ∃ sunrise sunset : ℝ,
        Binary64.Times 9007199254740993 0 0 0 = (some sunrise, some sunset) ∧
          sunrise < sunset := by
  obtain ⟨hq, hT⟩ := Binary64.Times_two_pow_53
  refine ⟨le_rfl, hq, hT, ?_⟩
  rintro ⟨sunrise, sunset, h, hlt⟩
  rw [hT] at h
  have h1 := Option.some.inj (Prod.mk.inj h).1
  have h2 := Option.some.inj (Prod.mk.inj h).2
  linarith

/-- C1, amended: in `float64` arithmetic, for every date, longitude and latitude
and every altitude `≥ 0` whose inverse-cosine argument lies in `[-1, 1]`, `Times`
returns a finite sunrise and sunset with `sunrise ≤ sunset`. -/
theorem Times_sunrise_le_sunset (date : ℤ) (longitude latitude altitude q : ℝ)
    (_halt : 0 ≤ altitude)
    (harg : Binary64.timesAcosArg date longitude latitude altitude = some q)
    (h1 : -1 ≤ q) (h2 : q ≤ 1) :
    ∃ sunrise sunset : ℝ,
      Binary64.Times date longitude latitude altitude = (some sunrise, some sunset) ∧
      sunrise ≤ sunset := by
  rw [Binary64.timesAcosArg_eq] at harg
  have hH := Binary64.hourAngle_of_Acos_arg harg h1 h2
  obtain ⟨h0, -⟩ := Binary64.hourAngle_mem hH
  rw [Binary64.Times_eq_julRiseAndSet, hH]
  exact Binary64.julRiseAndSet_le _ _ _ h0

/-- Witness of C1 amended, at date 2451545, longitude 0, latitude 0 and
altitude 0. -/
theorem Times_sunrise_le_sunset_witness :
    ∃ q : ℝ, (0 : ℝ) ≤ 0 ∧ Binary64.timesAcosArg 2451545 0 0 0 = some q ∧ -1 ≤ q ∧ q ≤ 1 ∧
      ∃ sunrise sunset : ℝ,
        Binary64.Times 2451545 0 0 0 = (some sunrise, some sunset) ∧ sunrise ≤ sunset := by
  obtain ⟨q, H, hq, h1, h2, -, -, -⟩ :=
    Binary64.hourAngle_equator_zero (Binary64.timesEclipticLongitude 2451545 0)
  exact ⟨q, le_rfl, hq, h1, h2, Times_sunrise_le_sunset 2451545 0 0 0 q le_rfl hq h1 h2⟩

/-- C2: for every date and all finite longitude, latitude and altitude, `Times`
returns exactly the pair that the specification's algorithm gives. -/
theorem Times_eq_specTimes (date : ℤ) (longitude latitude altitude : ℝ) :
    Times date longitude latitude altitude = specTimes date longitude latitude altitude := by
  have hd : DegToRad = 2 * Real.pi / 360 := by unfold DegToRad; norm_num
  have hn : meanSolarNoon (((date : ℝ) - Jan1200012pm) + 0.0008) longitude =
      longitude / 360 + (((date : ℝ) - 2451545) + 0.0008) := by
    unfold meanSolarNoon Jan1200012pm; norm_num
  unfold Times specTimes
  simp only []
  rw [hn]
  generalize longitude / 360 + (((date : ℝ) - 2451545) + 0.0008) = n
  have hm : meanSolarAnomaly n = math.Mod (357.5291 + 0.98560028 * n) 360 := by
    unfold meanSolarAnomaly; norm_num
  rw [hm]
  generalize math.Mod (357.5291 + 0.98560028 * n) 360 = M
  have hl : eclipticLongitude M = math.Mod (M + (1.9148 * Real.sin (deg M) +
      0.02 * Real.sin (deg (2 * M)) + 0.0003 * Real.sin (deg (3 * M))) + 180 + 102.9372) 360 := by
    unfold eclipticLongitude center deg
    rw [hd]
    norm_num
    simp only [mul_assoc]
  rw [hl, hourAngle_spec]
  generalize math.Mod (M + (1.9148 * Real.sin (deg M) +
      0.02 * Real.sin (deg (2 * M)) + 0.0003 * Real.sin (deg (3 * M))) + 180 + 102.9372) 360 = L
  generalize hH : (do
      let a ← math.Asin (Real.sin (deg L) * Real.sin (deg 23.43713))
      let d := a / (2 * Real.pi / 360)
      let root ← math.Sqrt altitude
      let q ← quotient
        (Real.sin (deg (-0.83 - 2.076 * root / 60)) - Real.sin (deg latitude) * Real.sin (deg d))
        (Real.cos (deg latitude) * Real.cos (deg d))
      let c ← math.Acos q
      pure (c / (2 * Real.pi / 360)) : F) = H
  cases H with
  | none => simp [julRiseAndSet_none]
  | some h =>
    rw [julRiseAndSet_some]
    simp only [Option.map_some', deg, hd]

/-- C3, counterexample: for date 2451145 and longitude 0 the mean solar anomaly
is `-36.710223519776`, outside `[0, 360)`. -/
theorem meanSolarAnomaly_not_in_range :
    ¬ (0 ≤ meanSolarAnomaly (meanSolarNoon ((((2451145 : ℤ) : ℝ) - Jan1200012pm) + 0.0008) 0) ∧
      meanSolarAnomaly (meanSolarNoon ((((2451145 : ℤ) : ℝ) - Jan1200012pm) + 0.0008) 0) < 360) := by
  have e : meanSolarAnomaly (meanSolarNoon ((((2451145 : ℤ) : ℝ) - Jan1200012pm) + 0.0008) 0)
      = -36.710223519776 := by
    unfold meanSolarAnomaly meanSolarNoon Jan1200012pm
    rw [Mod_360, Mod_360_of_neg_small] <;> norm_num
  rw [e]; norm_num

/-- C3, amended: for every mean solar noon the mean solar anomaly lies in
`(-360, 360)`, and it lies in `[0, 360)` whenever the dividend
`357.5291 + 0.98560028 * meanSolarNoon` is nonnegative. -/
theorem meanSolarAnomaly_range (n : ℝ) :
    -360 < meanSolarAnomaly n ∧ meanSolarAnomaly n < 360 ∧
      (0 ≤ 357.5291 + 0.98560028 * n → 0 ≤ meanSolarAnomaly n) := by
  unfold meanSolarAnomaly
  rw [Mod_360]
  have h := Mod_360_abs_lt (357.5291 + 0.98560028 * n)
  exact ⟨h.1, h.2, fun h0 => (Mod_360_of_nonneg h0).1⟩

/-- Witness of C3 amended, at mean solar noon 0. -/
theorem meanSolarAnomaly_range_witness :
    (0 : ℝ) ≤ 357.5291 + 0.98560028 * 0 ∧ 0 ≤ meanSolarAnomaly 0 ∧ meanSolarAnomaly 0 < 360 :=
  ⟨by norm_num, (meanSolarAnomaly_range 0).2.2 (by norm_num), (meanSolarAnomaly_range 0).2.1⟩

/-- C4, counterexample: for date 2450878 and longitude 0 the mean solar anomaly
is `-299.865498279776` and the ecliptic longitude computed from it is negative,
outside `[0, 360)`. -/
theorem eclipticLongitude_not_in_range :
    ¬ (0 ≤ timesEclipticLongitude 2450878 0 ∧ timesEclipticLongitude 2450878 0 < 360) := by
  have e : meanSolarAnomaly (meanSolarNoon ((((2450878 : ℤ) : ℝ) - Jan1200012pm) + 0.0008) 0)
      = -299.865498279776 := by
    unfold meanSolarAnomaly meanSolarNoon Jan1200012pm
    rw [Mod_360, Mod_360_of_neg_small] <;> norm_num
  have hc := abs_le.mp (abs_center_le (-299.865498279776))
  have hl : timesEclipticLongitude 2450878 0 < 0 := by
    unfold timesEclipticLongitude
    rw [e]
    unfold eclipticLongitude
    rw [Mod_360, Mod_360_of_neg_small] <;> norm_num at hc ⊢ <;> linarith [hc.1, hc.2]
  intro h
  linarith [h.1]

/-- C4, amended: for every mean solar anomaly the ecliptic longitude lies in
`(-360, 360)`, and it lies in `[0, 360)` whenever the mean solar anomaly is at
least `-281` (in particular whenever it lies in `[0, 360)`). -/
theorem eclipticLongitude_range (m : ℝ) :
    -360 < eclipticLongitude m ∧ eclipticLongitude m < 360 ∧
      (-281 ≤ m → 0 ≤ eclipticLongitude m) := by
  unfold eclipticLongitude
  rw [Mod_360]
  have h := Mod_360_abs_lt (m + center m + 180.0 + 102.9372)
  refine ⟨h.1, h.2, fun h0 => (Mod_360_of_nonneg ?_).1⟩
  have hc := abs_le.mp (abs_center_le m)
  norm_num at hc ⊢
  linarith [hc.1]

/-- Witness of C4 amended, at mean solar anomaly 0. -/
theorem eclipticLongitude_range_witness :
    (-281 : ℝ) ≤ 0 ∧ 0 ≤ eclipticLongitude 0 ∧ eclipticLongitude 0 < 360 :=
  ⟨by norm_num, (eclipticLongitude_range 0).2.2 (by norm_num), (eclipticLongitude_range 0).2.1⟩

/-- C5: for every date, all finite longitude and latitude and every altitude
`< 0`, `Times` returns not-a-number for both the sunrise and the sunset. -/
theorem Times_of_negative_altitude (date : ℤ) (longitude latitude altitude : ℝ)
    (h : altitude < 0) :
    Times date longitude latitude altitude = (none, none) := by
  rw [Times_eq, hourAngle_of_negative _ _ h, julRiseAndSet_none]

/-- Witness of C5, at altitude `-1`. -/
theorem Times_of_negative_altitude_witness :
    (-1 : ℝ) < 0 ∧ Times 2451545 0 51.5 (-1) = (none, none) :=
  ⟨by norm_num, Times_of_negative_altitude 2451545 0 51.5 (-1) (by norm_num)⟩

/-- C6: for every input with altitude `≥ 0` in which the argument of the inverse
cosine is not a number of `[-1, 1]`, `Times` returns not-a-number for both the
sunrise and the sunset. -/
theorem Times_of_arg_outside (date : ℤ) (longitude latitude altitude : ℝ)
    (_halt : 0 ≤ altitude)
    (h : ∀ q, timesAcosArg date longitude latitude altitude = some q → q < -1 ∨ 1 < q) :
    Times date longitude latitude altitude = (none, none) := by
  rw [Times_eq, hourAngle_of_arg_outside h, julRiseAndSet_none]

/-- Witness of C6, at the input the claim names: latitude 80, longitude 0,
altitude 0 and date 2451900, where the inverse-cosine argument exceeds 1. -/
theorem Times_of_arg_outside_witness :
    (0 : ℝ) ≤ 0 ∧ (∃ q : ℝ, timesAcosArg 2451900 0 80 0 = some q ∧ 1 < q) ∧
      Times 2451900 0 80 0 = (none, none) := by
  obtain ⟨q, hq, h1⟩ := timesAcosArg_polar_night
  refine ⟨le_rfl, ⟨q, hq, h1⟩, Times_of_arg_outside 2451900 0 80 0 le_rfl ?_⟩
  intro q' hq'
  rw [hq] at hq'
  rw [← Option.some.inj hq']
  exact Or.inr h1

/-- C7, counterexample: in `float64` arithmetic, for date `2^51`, longitude 0,
latitude 0 and altitude 0 `Times` returns `(2^51 - 0.25, 2^51)`, a day length
of `0.25` day. -/
theorem Times_equator_day_length_quarter :
    Binary64.Times 2251799813685248 0 0 0 =
        (some 2251799813685247.75, some 2251799813685248) ∧
      ¬ |((2251799813685248 : ℝ) - 2251799813685247.75) - 0.5| ≤ 0.01 := by
  refine ⟨Binary64.Times_two_pow_51_zero.2, ?_⟩
  rw [abs_le]
  norm_num

/-- C7, amended: in `float64` arithmetic, for every date and every longitude up
to `10^9` in absolute value, with latitude 0 and altitude 0, `Times` returns a
finite sunrise and sunset with `|(sunset - sunrise) - 0.5| ≤ 0.01` days. -/
theorem Times_equator_day_length (date : ℤ) (longitude : ℝ)
    (hd : |date| ≤ 1000000000) (hl : |longitude| ≤ 1000000000) :
    ∃ sunrise sunset : ℝ, Binary64.Times date longitude 0 0 = (some sunrise, some sunset) ∧
      |(sunset - sunrise) - 0.5| ≤ 0.01 := by
  have hd' : |(date : ℝ)| ≤ 1000000000 := by exact_mod_cast hd
  obtain ⟨T, -, hT⟩ := Binary64.Times_approx date 0 0 hd' hl
  obtain ⟨q, H, -, -, -, hH, hu1, hu2⟩ :=
    Binary64.hourAngle_equator_zero (Binary64.timesEclipticLongitude date longitude)
  obtain ⟨sunrise, sunset, h, hr, hs⟩ := hT H hH
  refine ⟨sunrise, sunset, h, ?_⟩
  have hr' := abs_le.mp hr
  have hs' := abs_le.mp hs
  rw [abs_le]
  constructor <;> norm_num at hu1 hu2 ⊢ <;> linarith [hr'.1, hr'.2, hs'.1, hs'.2]

/-- Witness of C7 amended, at date 2451545 and longitude 0. -/
theorem Times_equator_day_length_witness :
    |(2451545 : ℤ)| ≤ 1000000000 ∧ |(0 : ℝ)| ≤ 1000000000 ∧
      ∃ sunrise sunset : ℝ, Binary64.Times 2451545 0 0 0 = (some sunrise, some sunset) ∧
        |(sunset - sunrise) - 0.5| ≤ 0.01 :=
  ⟨by decide, by norm_num, Times_equator_day_length 2451545 0 (by decide) (by norm_num)⟩

/-- C8: for the reference input `Times(2451545, 0, 51.5, 0)` the sunrise is
within 5 minutes (`5/1440` day) of Julian day `2451544.5 + 486/1440` (08:06 UTC)
and the sunset within 5 minutes of `2451544.5 + 961/1440` (16:01 UTC). -/
theorem Times_reference_scenario :
    ∃ sunrise sunset : ℝ, Times 2451545 0 51.5 0 = (some sunrise, some sunset) ∧
      |sunrise - (2451544.5 + 486 / 1440)| ≤ 5 / 1440 ∧
      |sunset - (2451544.5 + 961 / 1440)| ≤ 5 / 1440 := by
  obtain ⟨q, hq, h1, h2⟩ := timesAcosArg_reference
  have hH := hourAngle_of_arg hq (by norm_num at h1 ⊢; linarith) (by norm_num at h2 ⊢; linarith)
  obtain ⟨hH1, hH2⟩ := arccos_div_DegToRad_reference h1 h2
  obtain ⟨hM1, hM2⟩ := sin_reference_anomaly
  obtain ⟨hL1, hL2⟩ := sin_two_mul_reference_longitude
  refine ⟨_, _, by rw [Times_eq, hH, julRiseAndSet_some], ?_, ?_⟩
  all_goals
    rw [meanSolarAnomaly_2451545.2, meanSolarAnomaly_2451545.1, abs_le]
    constructor <;> norm_num at hH1 hH2 hM1 hM2 hL1 hL2 ⊢ <;> linarith

/-- C10, counterexample: in `float64` arithmetic, for date `2^52 + 1`, longitude
0, latitude 0 and altitude 0 the inverse-cosine argument lies in `[-1, 1]` and
`Times` returns `(2^52, 2^52 + 2)`, a day length of 2 days. -/
theorem Times_day_length_two :
    (0 : ℝ) ≤ 0 ∧
      (∃ q : ℝ, Binary64.timesAcosArg 4503599627370497 0 0 0 = some q ∧ -1 ≤ q ∧ q ≤ 1) ∧
      Binary64.Times 4503599627370497 0 0 0 =
        (some 4503599627370496, some 4503599627370498) ∧
      ¬ ((4503599627370498 : ℝ) - 4503599627370496 ≤ 1) := by
  refine ⟨le_rfl, Binary64.Times_two_pow_52.1, Binary64.Times_two_pow_52.2, ?_⟩
  norm_num

/-- C10, amended: in `float64` arithmetic, for every altitude `≥ 0`, latitude
and ecliptic longitude whose inverse-cosine argument `q` lies in `[-1, 1]`,
`hourAngle` returns a value in `[0, 180]` degrees, and every call of `Times`
that reaches this hour angle returns a finite sunrise and sunset with
`0 ≤ sunset - sunrise`, and with `sunset - sunrise ≤ 1.0001` when the date and
the longitude are at most `10^9` in absolute value. -/
theorem hourAngle_range (altitude latitude ecl q : ℝ) (_halt : 0 ≤ altitude)
    (harg : Binary64.hourAngleArg altitude latitude ecl = some q) (h1 : -1 ≤ q) (h2 : q ≤ 1) :
    ∃ H : ℝ, Binary64.hourAngle altitude latitude ecl = some H ∧ 0 ≤ H ∧ H ≤ 180 ∧
      ∀ (date : ℤ) (longitude : ℝ), Binary64.timesEclipticLongitude date longitude = ecl →
        ∃ sunrise sunset : ℝ,
          Binary64.Times date longitude latitude altitude = (some sunrise, some sunset) ∧
          0 ≤ sunset - sunrise ∧
          (|date| ≤ 1000000000 → |longitude| ≤ 1000000000 → sunset - sunrise ≤ 1.0001) := by
  have hH := Binary64.hourAngle_of_Acos_arg harg h1 h2
  obtain ⟨h0, h180⟩ := Binary64.hourAngle_mem hH
  refine ⟨_, hH, h0, h180, ?_⟩
  intro date longitude hecl
  rw [← hecl] at hH
  obtain ⟨sunrise, sunset, h, hle⟩ := Binary64.julRiseAndSet_le
    (Binary64.meanSolarNoon (Binary64.float64 (Binary64.float64
      (Binary64.float64 (date : ℝ) - Binary64.Jan1200012pm) + Binary64.float64 0.0008))
      longitude)
    (Binary64.meanSolarAnomaly (Binary64.meanSolarNoon (Binary64.float64 (Binary64.float64
      (Binary64.float64 (date : ℝ) - Binary64.Jan1200012pm) + Binary64.float64 0.0008))
      longitude))
    (Binary64.timesEclipticLongitude date longitude) h0
  have hT : Binary64.Times date longitude latitude altitude = (some sunrise, some sunset) := by
    rw [Binary64.Times_eq_julRiseAndSet, hH, h]
  refine ⟨sunrise, sunset, hT, by linarith, ?_⟩
  intro hd hl
  have hd' : |(date : ℝ)| ≤ 1000000000 := by exact_mod_cast hd
  obtain ⟨T, -, hA⟩ := Binary64.Times_approx date latitude altitude hd' hl
  obtain ⟨rise, set, hT', hr, hs⟩ := hA _ hH
  rw [hT] at hT'
  have e1 := Option.some.inj (Prod.mk.inj hT').1
  have e2 := Option.some.inj (Prod.mk.inj hT').2
  rw [← e1] at hr
  rw [← e2] at hs
  obtain ⟨-, hu⟩ := Binary64.hourAngUnit_mem_of_mem h0 h180
  have hr' := abs_le.mp hr
  have hs' := abs_le.mp hs
  norm_num at hu ⊢
  linarith [hr'.1, hs'.2]

/-- Witness of C10 amended, at date 2451545, longitude 0, latitude 0 and
altitude 0. -/
theorem hourAngle_range_witness :
    ∃ q : ℝ, (0 : ℝ) ≤ 0 ∧
      Binary64.hourAngleArg 0 0 (Binary64.timesEclipticLongitude 2451545 0) = some q ∧
      -1 ≤ q ∧ q ≤ 1 ∧
      ∃ H : ℝ, Binary64.hourAngle 0 0 (Binary64.timesEclipticLongitude 2451545 0) = some H ∧
        0 ≤ H ∧ H ≤ 180 ∧
        ∃ sunrise sunset : ℝ,
          Binary64.Times 2451545 0 0 0 = (some sunrise, some sunset) ∧
          0 ≤ sunset - sunrise ∧ sunset - sunrise ≤ 1.0001 := by
  obtain ⟨q, -, hq, h1, h2, -, -, -⟩ :=
    Binary64.hourAngle_equator_zero (Binary64.timesEclipticLongitude 2451545 0)
  obtain ⟨H, hH, ha, hb, hT⟩ :=
    hourAngle_range 0 0 (Binary64.timesEclipticLongitude 2451545 0) q le_rfl hq h1 h2
  obtain ⟨sunrise, sunset, hs, hpos, hle⟩ := hT 2451545 0 rfl
  exact ⟨q, le_rfl, hq, h1, h2, H, hH, ha, hb, sunrise, sunset, hs, hpos,
    hle (by decide) (by norm_num)⟩

/-- C14: for every date `≥ 2451183` and every longitude in `[-180, 180]` the
mean solar anomaly and the ecliptic longitude that `Times` computes both lie in
`[0, 360)`. -/
theorem Times_angles_in_range (date : ℤ) (longitude : ℝ) (hd : 2451183 ≤ date)
    (h1 : -180 ≤ longitude) (_h2 : longitude ≤ 180) :
    (0 ≤ meanSolarAnomaly (meanSolarNoon (((date : ℝ) - Jan1200012pm) + 0.0008) longitude) ∧
      meanSolarAnomaly (meanSolarNoon (((date : ℝ) - Jan1200012pm) + 0.0008) longitude) < 360) ∧
    (0 ≤ timesEclipticLongitude date longitude ∧ timesEclipticLongitude date longitude < 360) := by
  have hd' : (2451183 : ℝ) ≤ (date : ℝ) := by exact_mod_cast hd
  have hx : (0 : ℝ) ≤ 357.5291 +
      0.98560028 * meanSolarNoon (((date : ℝ) - Jan1200012pm) + 0.0008) longitude := by
    unfold meanSolarNoon Jan1200012pm
    norm_num
    linarith
  have hM : 0 ≤ meanSolarAnomaly (meanSolarNoon (((date : ℝ) - Jan1200012pm) + 0.0008) longitude) ∧
      meanSolarAnomaly (meanSolarNoon (((date : ℝ) - Jan1200012pm) + 0.0008) longitude) < 360 := by
    unfold meanSolarAnomaly
    rw [Mod_360]
    exact Mod_360_of_nonneg hx
  refine ⟨hM, ?_⟩
  unfold timesEclipticLongitude
  generalize meanSolarAnomaly (meanSolarNoon (((date : ℝ) - Jan1200012pm) + 0.0008) longitude) = m
    at hM
  have hc := abs_le.mp (abs_center_le m)
  unfold eclipticLongitude
  rw [Mod_360]
  apply Mod_360_of_nonneg
  norm_num at hc ⊢
  linarith [hc.1, hM.1]

/-- Witness of C14, at date 2451545 and longitude 0. -/
theorem Times_angles_in_range_witness :
    (2451183 : ℤ) ≤ 2451545 ∧ (-180 : ℝ) ≤ 0 ∧ (0 : ℝ) ≤ 180 ∧
    (0 ≤ meanSolarAnomaly (meanSolarNoon ((((2451545 : ℤ) : ℝ) - Jan1200012pm) + 0.0008) 0) ∧
      meanSolarAnomaly (meanSolarNoon ((((2451545 : ℤ) : ℝ) - Jan1200012pm) + 0.0008) 0) < 360) ∧
    (0 ≤ timesEclipticLongitude 2451545 0 ∧ timesEclipticLongitude 2451545 0 < 360) :=
  ⟨by norm_num, by norm_num, by norm_num,
    Times_angles_in_range 2451545 0 (by norm_num) (by norm_num) (by norm_num)⟩

/-- C15: over exact arithmetic `Times` depends on the date and the longitude
only through `date + longitude/360`: a longitude raised by 360 degrees gives the
result of the next day. -/
theorem Times_longitude_add_360 (date : ℤ) (longitude latitude altitude : ℝ) :
    Times date (longitude + 360) latitude altitude =
      Times (date + 1) longitude latitude altitude := by
  have hn : meanSolarNoon (((date : ℝ) - Jan1200012pm) + 0.0008) (longitude + 360) =
      meanSolarNoon ((((date + 1 : ℤ) : ℝ) - Jan1200012pm) + 0.0008) longitude := by
    unfold meanSolarNoon
    push_cast
    norm_num
    ring
  unfold Times
  simp only []
  rw [hn]

/-- C17, counterexample: in `float64` arithmetic, for date `2^51`, longitude 0,
latitude 0 and altitude 0 `Times` returns `(2^51 - 0.25, 2^51)`, whose midpoint
is `0.1258` day before the mean solar noon `2^51 + 0.0008`. -/
theorem Times_transit_far_from_mean_noon :
    Binary64.Times 2251799813685248 0 0 0 =
        (some 2251799813685247.75, some 2251799813685248) ∧
      ¬ |((2251799813685247.75 : ℝ) + 2251799813685248) / 2 -
          (2451545 + ((((2251799813685248 : ℤ) : ℝ) - 2451545) + 0.0008) + 0 / 360)| ≤
        0.0122 := by
  refine ⟨Binary64.Times_two_pow_51_zero.2, ?_⟩
  rw [abs_le]
  norm_num

/-- C17, amended: in `float64` arithmetic, for every date and every longitude up
to `10^9` in absolute value at which the result of `Times` is finite, the solar
transit (the midpoint of sunrise and sunset) differs from the mean solar noon
`2451545 + ((date - 2451545) + 0.0008) + longitude/360` by at most `0.0123`
day. -/
theorem Times_transit_near_mean_noon (date : ℤ) (longitude latitude altitude sunrise sunset : ℝ)
    (hd : |date| ≤ 1000000000) (hl : |longitude| ≤ 1000000000)
    (h : Binary64.Times date longitude latitude altitude = (some sunrise, some sunset)) :
    |(sunrise + sunset) / 2 -
        (2451545 + (((date : ℝ) - 2451545) + 0.0008) + longitude / 360)| ≤ 0.0123 := by
  have hd' : |(date : ℝ)| ≤ 1000000000 := by exact_mod_cast hd
  obtain ⟨T, hT, hA⟩ := Binary64.Times_approx date latitude altitude hd' hl
  cases hH : Binary64.hourAngle altitude latitude
      (Binary64.timesEclipticLongitude date longitude) with
  | none =>
    rw [Binary64.Times_eq_julRiseAndSet, hH] at h
    exact absurd (Prod.mk.inj h).1 (by simp [Binary64.julRiseAndSet])
  | some H =>
    obtain ⟨rise, set, hT', hr, hs⟩ := hA H hH
    rw [h] at hT'
    have e1 := Option.some.inj (Prod.mk.inj hT').1
    have e2 := Option.some.inj (Prod.mk.inj hT').2
    rw [← e1] at hr
    rw [← e2] at hs
    have hr' := abs_le.mp hr
    have hs' := abs_le.mp hs
    have ht' := abs_le.mp hT
    rw [abs_le]
    constructor <;> norm_num at ht' ⊢ <;> linarith [hr'.1, hr'.2, hs'.1, hs'.2, ht'.1, ht'.2]

/-- Witness of C17 amended, at date 2451545, longitude 0, latitude 0 and
altitude 0. -/
theorem Times_transit_near_mean_noon_witness :
    |(2451545 : ℤ)| ≤ 1000000000 ∧ |(0 : ℝ)| ≤ 1000000000 ∧
      ∃ sunrise sunset : ℝ, Binary64.Times 2451545 0 0 0 = (some sunrise, some sunset) ∧
        |(sunrise + sunset) / 2 -
          (2451545 + ((((2451545 : ℤ) : ℝ) - 2451545) + 0.0008) + 0 / 360)| ≤ 0.0123 := by
  obtain ⟨sunrise, sunset, h⟩ := Binary64.Times_equator_finite 2451545 0
  exact ⟨by decide, by norm_num, sunrise, sunset, h,
    Times_transit_near_mean_noon 2451545 0 0 0 sunrise sunset (by decide) (by norm_num) h⟩

end Riseandset
